import Mathlib

/-!
Shallow embedding of the nostr repository's NIP-19 bech32 codecs
(crates/nostr/src/nips/nip19.rs) and subscription filters
(crates/nostr/src/message/subscription.rs), with proofs of the
specification claims about them.

Byte strings are modelled as `List Nat` (each element a byte value),
bech32 strings as `List Char`.  The external `bitcoin::bech32` crate
(BIP-173 encoding), the secp256k1 key validity checks and the `uuid`
crate are modelled from their documented behaviour, since they are
dependencies, not repository code.
-/

set_option maxRecDepth 8000

namespace Nostr

/-! ### Bit utilities: base32 regrouping (models bitcoin::bech32 ToBase32 / FromBase32) -/

/-- Most-significant-bit-first binary expansion of `v` to width `w` (low `w` bits). -/
def natToBits : Nat → Nat → List Bool
  | 0, _ => []
  | w + 1, v => decide (v / 2 ^ w % 2 = 1) :: natToBits w (v % 2 ^ w)

/-- Value of a most-significant-bit-first bit list. -/
def bitsToNat : List Bool → Nat
  | [] => 0
  | b :: bs => (cond b 1 0) * 2 ^ bs.length + bitsToNat bs

/-- Concatenation of the images of a list-valued function. -/
def listFlat (f : α → List β) : List α → List β
  | [] => []
  | a :: as => f a ++ listFlat f as

/-- Group a bit list into 5-bit values, most significant bit first. -/
def chunks5 : List Bool → List Nat
  | b1 :: b2 :: b3 :: b4 :: b5 :: rest => bitsToNat [b1, b2, b3, b4, b5] :: chunks5 rest
  | [] => []
  | rest => [bitsToNat rest]

/-- Group a bit list into 8-bit values, most significant bit first. -/
def chunks8 : List Bool → List Nat
  | b1 :: b2 :: b3 :: b4 :: b5 :: b6 :: b7 :: b8 :: rest =>
      bitsToNat [b1, b2, b3, b4, b5, b6, b7, b8] :: chunks8 rest
  | _ => []

/-- Models `ToBase32` of the bitcoin::bech32 crate: regroup the bytes' bits,
most significant first, into 5-bit values, zero-padding the final group. -/
def toBase32 (bytes : List Nat) : List Nat :=
  let bits := listFlat (natToBits 8) bytes
  chunks5 (bits ++ List.replicate ((5 - bits.length % 5) % 5) false)

/-- Models `Vec::<u8>::from_base32` of the bitcoin::bech32 crate: regroup 5-bit
values into bytes; fails if an input value exceeds 31, if 5 or more bits are
left over, or if any padding bit is nonzero. -/
def fromBase32 (u5s : List Nat) : Option (List Nat) :=
  if u5s.all (fun v => decide (v < 32)) then
    let bits := listFlat (natToBits 5) u5s
    let r := bits.length % 8
    if 5 ≤ r then none
    else if (bits.drop (bits.length - r)).any id then none
    else some (chunks8 (bits.take (bits.length - r)))
  else none

/-! ### The bech32 checksummed string encoding (models bitcoin::bech32, BIP-173) -/

def charsetChars : List Char := "qpzry9x8gf2tvdw0s3jn54khce6mua7l".toList

def charsetChar (v : Nat) : Char := charsetChars.getD v 'q'

def charsetIdx : List Char → Nat → Char → Option Nat
  | [], _, _ => none
  | d :: ds, i, c => if d = c then some i else charsetIdx ds (i + 1) c

def charsetRev (c : Char) : Option Nat := charsetIdx charsetChars 0 c

/-- XOR of the BCH generator constants selected by the low five bits of `b`. -/
def genXor (b : Nat) : Nat :=
  (if b.testBit 0 then 0x3b6a57b2 else 0) ^^^
    ((if b.testBit 1 then 0x26508e6d else 0) ^^^
      ((if b.testBit 2 then 0x1ea119fa else 0) ^^^
        ((if b.testBit 3 then 0x3d4233dd else 0) ^^^
          (if b.testBit 4 then 0x2a1462b3 else 0))))

/-- One step of the bech32 polymod checksum state machine. -/
def b32Step (chk v : Nat) : Nat :=
  ((chk &&& 0x1ffffff) <<< 5) ^^^ v ^^^ genXor (chk >>> 25)

def b32Polymod (vs : List Nat) : Nat := vs.foldl b32Step 1

def hrpExpand (hrp : List Char) : List Nat :=
  hrp.map (fun c => c.toNat >>> 5) ++ [0] ++ hrp.map (fun c => c.toNat &&& 31)

inductive Variant where
  | bech32
  | bech32m
deriving DecidableEq

def variantConst : Variant → Nat
  | .bech32 => 1
  | .bech32m => 0x2bc830a3

def createChecksum (hrp : List Char) (data : List Nat) (v : Variant) : List Nat :=
  let plm := b32Polymod (hrpExpand hrp ++ data ++ [0, 0, 0, 0, 0, 0]) ^^^ variantConst v
  (List.range 6).map (fun i => (plm >>> (5 * (5 - i))) &&& 31)

def verifyChecksum (hrp : List Char) (payload : List Nat) : Option Variant :=
  let pm := b32Polymod (hrpExpand hrp ++ payload)
  if pm = 1 then some .bech32
  else if pm = 0x2bc830a3 then some .bech32m
  else none

def isUpperA (c : Char) : Bool := decide (65 ≤ c.toNat) && decide (c.toNat ≤ 90)

def isLowerA (c : Char) : Bool := decide (97 ≤ c.toNat) && decide (c.toNat ≤ 122)

def toLowerA (c : Char) : Char := if isUpperA c then Char.ofNat (c.toNat + 32) else c

def hrpOkB (hrp : List Char) : Bool :=
  decide (1 ≤ hrp.length) && decide (hrp.length ≤ 83) &&
    hrp.all (fun c => decide (33 ≤ c.toNat) && decide (c.toNat ≤ 126))

/-- Models `bech32::encode` for the lowercase human-readable parts the
repository uses: checks the human-readable part and the 5-bit data values,
appends the separator `1`, the data characters and the six checksum
characters. -/
def bech32Encode (hrp : List Char) (data : List Nat) (v : Variant) : Option (List Char) :=
  if hrpOkB hrp && hrp.all (fun c => !isUpperA c) && data.all (fun d => decide (d < 32)) then
    some (hrp ++ '1' :: (data ++ createChecksum hrp data v).map charsetChar)
  else none

/-- Split a string at the last occurrence of the separator character `1`. -/
def splitLast1 : List Char → Option (List Char × List Char)
  | [] => none
  | c :: rest =>
    match splitLast1 rest with
    | some (h, t) => some (c :: h, t)
    | none => if c = '1' then some ([], rest) else none

/-- Map a fallible function over a list, failing if any element fails. -/
def mapOpt (f : α → Option β) : List α → Option (List β)
  | [] => some []
  | a :: as =>
    match f a with
    | none => none
    | some b =>
      match mapOpt f as with
      | none => none
      | some bs => some (b :: bs)

/-- Models `bech32::decode`: rejects mixed case, lowercases, splits at the last
`1`, checks the human-readable part, maps data characters through the charset,
verifies the checksum and reports which variant it matched. -/
def bech32Decode (s : List Char) : Option (List Char × List Nat × Variant) :=
  if s.any isUpperA && s.any isLowerA then none
  else
    let t := s.map toLowerA
    match splitLast1 t with
    | none => none
    | some (hrp, dataChars) =>
      if hrpOkB hrp then
        match mapOpt charsetRev dataChars with
        | none => none
        | some payload =>
          if payload.length < 6 then none
          else
            match verifyChecksum hrp payload with
            | none => none
            | some var => some (hrp, payload.take (payload.length - 6), var)
      else none

/-! ### Keys and ids (models the secp256k1 types and the repository's EventId) -/

/-- Fuel-based modular exponentiation, used for Euler's criterion. -/
def powModF : Nat → Nat → Nat → Nat → Nat
  | 0, _, _, m => 1 % m
  | fuel + 1, b, e, m =>
    if e = 0 then 1 % m
    else
      let r := powModF fuel (b * b % m) (e / 2) m
      if e % 2 = 1 then b * r % m else r

/-- The secp256k1 field prime. -/
def secpP : Nat := 2 ^ 256 - 2 ^ 32 - 977

/-- The secp256k1 group order. -/
def secpN : Nat := 0xFFFFFFFFFFFFFFFFFFFFFFFFFFFFFFFEBAAEDCE6AF48A03BBFD25E8CD0364141

/-- Big-endian value of a byte list. -/
def beNat (bs : List Nat) : Nat := bs.foldl (fun a b => 256 * a + b) 0

/-- Quadratic residuosity modulo the field prime, by Euler's criterion. -/
def isSquareModP (a : Nat) : Prop :=
  a % secpP = 0 ∨ powModF 300 (a % secpP) ((secpP - 1) / 2) secpP = 1

instance (a : Nat) : Decidable (isSquareModP a) := by
  unfold isSquareModP; infer_instance

/-- Validity of an x-only public key serialization: 32 bytes whose value is an
x-coordinate on the secp256k1 curve (models `XOnlyPublicKey::from_slice`). -/
def isXOnlyBytes (bs : List Nat) : Prop :=
  bs.length = 32 ∧ (∀ b ∈ bs, b < 256) ∧ beNat bs < secpP ∧ isSquareModP (beNat bs ^ 3 + 7)

instance (bs : List Nat) : Decidable (isXOnlyBytes bs) := by
  unfold isXOnlyBytes; infer_instance

/-- Validity of a secret key: 32 bytes, value in `[1, n-1]`
(models `SecretKey::from_slice`). -/
def isSecretKeyBytes (bs : List Nat) : Prop :=
  bs.length = 32 ∧ (∀ b ∈ bs, b < 256) ∧ 0 < beNat bs ∧ beNat bs < secpN

instance (bs : List Nat) : Decidable (isSecretKeyBytes bs) := by
  unfold isSecretKeyBytes; infer_instance

/-- Modelled from the spec: event ids are 32-byte values (`id: 32-byte hex`);
the EventId type itself lives in `event/id.rs`, which is not under `src/`. -/
def isEventIdBytes (bs : List Nat) : Prop :=
  bs.length = 32 ∧ ∀ b ∈ bs, b < 256

instance (bs : List Nat) : Decidable (isEventIdBytes bs) := by
  unfold isEventIdBytes; infer_instance

structure XOnlyPublicKey where
  bytes : List Nat
  okey : isXOnlyBytes bytes

instance : DecidableEq XOnlyPublicKey := fun a b =>
  match a, b with
  | ⟨x, _⟩, ⟨y, _⟩ =>
    if h : x = y then isTrue (by subst h; rfl)
    else isFalse (by intro e; cases e; exact h rfl)

structure SecretKey where
  bytes : List Nat
  okey : isSecretKeyBytes bytes

instance : DecidableEq SecretKey := fun a b =>
  match a, b with
  | ⟨x, _⟩, ⟨y, _⟩ =>
    if h : x = y then isTrue (by subst h; rfl)
    else isFalse (by intro e; cases e; exact h rfl)

/-- Modelled from the spec: a 32-byte event id (`event/id.rs` is not under `src/`). -/
structure EventId where
  bytes : List Nat
  okey : isEventIdBytes bytes

instance : DecidableEq EventId := fun a b =>
  match a, b with
  | ⟨x, _⟩, ⟨y, _⟩ =>
    if h : x = y then isTrue (by subst h; rfl)
    else isFalse (by intro e; cases e; exact h rfl)

def XOnlyPublicKey.fromSlice (bs : List Nat) : Except Unit XOnlyPublicKey :=
  if h : isXOnlyBytes bs then .ok ⟨bs, h⟩ else .error ()

def SecretKey.fromSlice (bs : List Nat) : Except Unit SecretKey :=
  if h : isSecretKeyBytes bs then .ok ⟨bs, h⟩ else .error ()

/-- Modelled from the spec: `EventId::from_slice` fails unless given exactly 32
bytes (the sha256 wrapper's length check). -/
def EventId.fromSlice (bs : List Nat) : Except Unit EventId :=
  if h : isEventIdBytes bs then .ok ⟨bs, h⟩ else .error ()

/-! ### NIP-19 (crates/nostr/src/nips/nip19.rs) -/

/-- The error enum of nip19.rs (payloads of the transparent variants dropped). -/
inductive Nip19Error where
  | bech32Err
  | skParse
  | pkParse
  | noteParse
  | profileParse
  | eventParse
  | secpErr
  | hashErr
  | eventIdErr
deriving DecidableEq

def nsecHrp : List Char := "nsec".toList
def npubHrp : List Char := "npub".toList
def noteHrp : List Char := "note".toList
def nprofileHrp : List Char := "nprofile".toList
def neventHrp : List Char := "nevent".toList

def SecretKey.toBech32 (sk : SecretKey) : Except Nip19Error (List Char) :=
  match bech32Encode nsecHrp (toBase32 sk.bytes) .bech32 with
  | some s => .ok s
  | none => .error .bech32Err

def SecretKey.fromBech32 (s : List Char) : Except Nip19Error SecretKey :=
  match bech32Decode s with
  | none => .error .skParse
  | some (hrp, data, var) =>
    if hrp = nsecHrp ∧ var = Variant.bech32 then
      match fromBase32 data with
      | none => .error .skParse
      | some bs =>
        match SecretKey.fromSlice bs with
        | .ok sk => .ok sk
        | .error _ => .error .skParse
    else .error .skParse

def XOnlyPublicKey.toBech32 (pk : XOnlyPublicKey) : Except Nip19Error (List Char) :=
  match bech32Encode npubHrp (toBase32 pk.bytes) .bech32 with
  | some s => .ok s
  | none => .error .bech32Err

def XOnlyPublicKey.fromBech32 (s : List Char) : Except Nip19Error XOnlyPublicKey :=
  match bech32Decode s with
  | none => .error .pkParse
  | some (hrp, data, var) =>
    if hrp = npubHrp ∧ var = Variant.bech32 then
      match fromBase32 data with
      | none => .error .pkParse
      | some bs =>
        match XOnlyPublicKey.fromSlice bs with
        | .ok pk => .ok pk
        | .error _ => .error .secpErr
    else .error .pkParse

def EventId.toBech32 (e : EventId) : Except Nip19Error (List Char) :=
  match bech32Encode noteHrp (toBase32 e.bytes) .bech32 with
  | some s => .ok s
  | none => .error .bech32Err

def EventId.fromBech32 (s : List Char) : Except Nip19Error EventId :=
  match bech32Decode s with
  | none => .error .noteParse
  | some (hrp, data, var) =>
    if hrp = noteHrp ∧ var = Variant.bech32 then
      match fromBase32 data with
      | none => .error .noteParse
      | some bs =>
        match EventId.fromSlice bs with
        | .ok e => .ok e
        | .error _ => .error .eventIdErr
    else .error .noteParse

/-- Modelled from the spec: the Profile record (`types/profile.rs` is not under
`src/`); its two fields are visible from the construction in nip19.rs.  Relay
URLs are modelled as their UTF-8 byte lists. -/
structure Profile where
  public_key : XOnlyPublicKey
  relays : List (List Nat)
deriving DecidableEq

/-- Modelled from the spec: the constructor used by nip19.rs's tests. -/
def Profile.new (pk : XOnlyPublicKey) (relays : List (List Nat)) : Profile :=
  ⟨pk, relays⟩

structure Nip19Event where
  event_id : EventId
  relays : List (List Nat)
deriving DecidableEq

def Nip19Event.new (e : EventId) (relays : List (List Nat)) : Nip19Event :=
  ⟨e, relays⟩

def utf8Cont (b : Nat) : Bool := decide (128 ≤ b) && decide (b ≤ 191)

/-- UTF-8 validity of a byte list (models Rust's `String::from_utf8` check). -/
def utf8Valid : List Nat → Bool
  | [] => true
  | b :: rest =>
    if b < 128 then utf8Valid rest
    else if 194 ≤ b ∧ b ≤ 223 then
      match rest with
      | b2 :: rest2 => utf8Cont b2 && utf8Valid rest2
      | [] => false
    else if b = 224 then
      match rest with
      | b2 :: b3 :: rest2 =>
        (decide (160 ≤ b2) && decide (b2 ≤ 191)) && utf8Cont b3 && utf8Valid rest2
      | _ => false
    else if 225 ≤ b ∧ b ≤ 236 then
      match rest with
      | b2 :: b3 :: rest2 => utf8Cont b2 && utf8Cont b3 && utf8Valid rest2
      | _ => false
    else if b = 237 then
      match rest with
      | b2 :: b3 :: rest2 =>
        (decide (128 ≤ b2) && decide (b2 ≤ 159)) && utf8Cont b3 && utf8Valid rest2
      | _ => false
    else if 238 ≤ b ∧ b ≤ 239 then
      match rest with
      | b2 :: b3 :: rest2 => utf8Cont b2 && utf8Cont b3 && utf8Valid rest2
      | _ => false
    else if b = 240 then
      match rest with
      | b2 :: b3 :: b4 :: rest2 =>
        (decide (144 ≤ b2) && decide (b2 ≤ 191)) && utf8Cont b3 && utf8Cont b4 &&
          utf8Valid rest2
      | _ => false
    else if 241 ≤ b ∧ b ≤ 243 then
      match rest with
      | b2 :: b3 :: b4 :: rest2 => utf8Cont b2 && utf8Cont b3 && utf8Cont b4 && utf8Valid rest2
      | _ => false
    else if b = 244 then
      match rest with
      | b2 :: b3 :: b4 :: rest2 =>
        (decide (128 ≤ b2) && decide (b2 ≤ 143)) && utf8Cont b3 && utf8Cont b4 &&
          utf8Valid rest2
      | _ => false
    else false

/-- The relay-TLV parsing loop shared by `Profile::from_bech32` and
`Nip19Event::from_bech32`.  The fuel argument bounds the number of
iterations; callers pass the list length, which always suffices because each
iteration consumes at least two bytes. -/
def parseRelaysF (err : Nip19Error) : Nat → List Nat → Except Nip19Error (List (List Nat))
  | _, [] => .ok []
  | 0, _ :: _ => .error err
  | fuel + 1, t :: rest =>
    if t = 1 then
      match rest with
      | [] => .error err
      | l :: rest2 =>
        if rest2.length < l then .error err
        else
          let url := rest2.take l
          if utf8Valid url then
            match parseRelaysF err fuel (rest2.drop l) with
            | .ok urls => .ok (url :: urls)
            | .error e => .error e
          else .error err
    else .error err

/-- The TLV byte sequence built by `Profile::to_bech32` before base32/bech32
wrapping: `(0x00, 0x20, pubkey)` then `(0x01, len as u8, url bytes)` per relay. -/
def profileTLV (p : Profile) : List Nat :=
  [0, 32] ++ p.public_key.bytes ++ listFlat (fun r => 1 :: r.length % 256 :: r) p.relays

def Profile.toBech32 (p : Profile) : Except Nip19Error (List Char) :=
  match bech32Encode nprofileHrp (toBase32 (profileTLV p)) .bech32 with
  | some s => .ok s
  | none => .error .bech32Err

def Profile.fromBech32 (s : List Char) : Except Nip19Error Profile :=
  match bech32Decode s with
  | none => .error .profileParse
  | some (hrp, data5, var) =>
    if hrp = nprofileHrp ∧ var = Variant.bech32 then
      match fromBase32 data5 with
      | none => .error .profileParse
      | some data =>
        match data with
        | [] => .error .profileParse
        | t :: rest =>
          if t = 0 then
            match rest with
            | [] => .error .profileParse
            | l :: rest2 =>
              if l = 32 then
                if rest2.length < 32 then .error .profileParse
                else
                  match XOnlyPublicKey.fromSlice (rest2.take 32) with
                  | .error _ => .error .secpErr
                  | .ok pk =>
                    match parseRelaysF .profileParse (rest2.drop 32).length (rest2.drop 32) with
                    | .error e => .error e
                    | .ok relays => .ok ⟨pk, relays⟩
              else .error .profileParse
          else .error .profileParse
    else .error .profileParse

/-- The TLV byte sequence built by `Nip19Event::to_bech32`. -/
def eventTLV (e : Nip19Event) : List Nat :=
  [0, 32] ++ e.event_id.bytes ++ listFlat (fun r => 1 :: r.length % 256 :: r) e.relays

def Nip19Event.toBech32 (e : Nip19Event) : Except Nip19Error (List Char) :=
  match bech32Encode neventHrp (toBase32 (eventTLV e)) .bech32 with
  | some s => .ok s
  | none => .error .bech32Err

def Nip19Event.fromBech32 (s : List Char) : Except Nip19Error Nip19Event :=
  match bech32Decode s with
  | none => .error .eventParse
  | some (hrp, data5, var) =>
    if hrp = neventHrp ∧ var = Variant.bech32 then
      match fromBase32 data5 with
      | none => .error .eventParse
      | some data =>
        match data with
        | [] => .error .eventParse
        | t :: rest =>
          if t = 0 then
            match rest with
            | [] => .error .eventParse
            | l :: rest2 =>
              if l = 32 then
                if rest2.length < 32 then .error .eventParse
                else
                  match EventId.fromSlice (rest2.take 32) with
                  | .error _ => .error .eventIdErr
                  | .ok eid =>
                    match parseRelaysF .eventParse (rest2.drop 32).length (rest2.drop 32) with
                    | .error e => .error e
                    | .ok relays => .ok ⟨eid, relays⟩
              else .error .eventParse
          else .error .eventParse
    else .error .eventParse

/-! ### Concrete values used by the specification's scenarios -/

def hexNib (c : Char) : Option Nat :=
  let n := c.toNat
  if 48 ≤ n ∧ n ≤ 57 then some (n - 48)
  else if 97 ≤ n ∧ n ≤ 102 then some (n - 87)
  else if 65 ≤ n ∧ n ≤ 70 then some (n - 55)
  else none

def hexBytesList : List Char → Option (List Nat)
  | [] => some []
  | c1 :: c2 :: rest =>
    match hexNib c1, hexNib c2, hexBytesList rest with
    | some h, some l, some t => some ((16 * h + l) :: t)
    | _, _, _ => none
  | _ => none

def hexB (s : String) : List Nat := (hexBytesList s.toList).getD []

def asciiBytes (s : String) : List Nat := s.toList.map Char.toNat

/-- The secret key of the spec's bech32 round-trip scenario. -/
def sk9571 : SecretKey :=
  ⟨hexB "9571a568a42b9e05646a349c783159b906b498119390df9a5a02667155128028", by decide⟩

/-- The public key of the spec's profile TLV scenario. -/
def pk3bf0 : XOnlyPublicKey :=
  ⟨hexB "3bf0c63fcb93463407af97a5e5ee64fa883d107ef9e558472c4eb9aaaefa459d", by decide⟩

/-- The public key of nip19.rs's `to_bech32_public_key` test. -/
def pkAa4f : XOnlyPublicKey :=
  ⟨hexB "aa4fc8665f5696e33db7e1a572e3b0f5b3d615837b0f362dcb1c8068b098c7b4", by decide⟩

/-- The event id of the spec's note bech32 scenario. -/
def eidD94a : EventId :=
  ⟨hexB "d94a3f4dd87b9a3b0bed183b32e916fa29c8020107845d1752d72697fe5309a5", by decide⟩

def prof3bf0 : Profile :=
  ⟨pk3bf0, [asciiBytes "wss://r.x.com", asciiBytes "wss://djbas.sadkb.com"]⟩

def nprofileVec : List Char :=
  "nprofile1qqsrhuxx8l9ex335q7he0f09aej04zpazpl0ne2cgukyawd24mayt8gpp4mhxue69uhhytnc9e3k7mgpz4mhxue69uhkg6nzv9ejuumpv34kytnrdaksjlyr9p".toList

def nsecVec : List Char :=
  "nsec1j4c6269y9w0q2er2xjw8sv2ehyrtfxq3jwgdlxj6qfn8z4gjsq5qfvfk99".toList

/-- A profile with a single 256-byte relay URL: the `relay.len() as u8`
truncation makes its encoding unparseable. -/
def cexProfile : Profile := ⟨pkAa4f, [List.replicate 256 97]⟩

/-- A nevent with a single 256-byte relay URL. -/
def cexNip19Event : Nip19Event := ⟨eidD94a, [List.replicate 256 98]⟩

/-! ### Subscriptions (crates/nostr/src/message/subscription.rs) -/

structure SubscriptionId where
  val : String
deriving DecidableEq

def SubscriptionId.new (id : String) : SubscriptionId := ⟨id⟩

def SubscriptionId.toString (s : SubscriptionId) : String := s.val

def hexDigit (n : Nat) : Char := "0123456789abcdef".toList.getD n '0'

def hexPair (b : Nat) : List Char := [hexDigit (b / 16 % 16), hexDigit (b % 16)]

/-- Models the `uuid` crate's v4 string form (hyphenated lowercase hex with the
version nibble forced to 4 and the variant bits to 10), as a function of the 16
random bytes the generator draws. -/
def uuidV4Chars (bs : List Nat) : List Char :=
  let b := fun i => bs.getD i 0
  hexPair (b 0) ++ hexPair (b 1) ++ hexPair (b 2) ++ hexPair (b 3) ++
    '-' :: (hexPair (b 4) ++ hexPair (b 5)) ++
    '-' :: (hexPair (64 + b 6 % 16) ++ hexPair (b 7)) ++
    '-' :: (hexPair (128 + b 8 % 64) ++ hexPair (b 9)) ++
    '-' :: (hexPair (b 10) ++ hexPair (b 11) ++ hexPair (b 12) ++ hexPair (b 13) ++
      hexPair (b 14) ++ hexPair (b 15))

/-- Models `SubscriptionId::generate`, with the random source made explicit as
the 16 bytes drawn by `uuid::Uuid::new_v4`. -/
def SubscriptionId.generate (randomBytes : List Nat) : SubscriptionId :=
  ⟨String.mk (uuidV4Chars randomBytes)⟩

def isHexDigitA (c : Char) : Bool :=
  (decide (48 ≤ c.toNat) && decide (c.toNat ≤ 57)) ||
    (decide (97 ≤ c.toNat) && decide (c.toNat ≤ 102))

/-- Modelled from the spec: `kinds (u16 list)` (`event/kind.rs` is not under `src/`). -/
abbrev Kind := Nat

/-- Modelled from the spec: unix-seconds timestamps (`types/time.rs` is not under `src/`). -/
abbrev Timestamp := Int

structure SubscriptionFilter where
  ids : Option (List String)
  authors : Option (List XOnlyPublicKey)
  kinds : Option (List Kind)
  events : Option (List EventId)
  pubkeys : Option (List XOnlyPublicKey)
  hashtags : Option (List String)
  references : Option (List String)
  search : Option String
  since : Option Timestamp
  until' : Option Timestamp
  limit : Option Nat
deriving DecidableEq

def SubscriptionFilter.new : SubscriptionFilter :=
  { ids := none
    kinds := none
    events := none
    pubkeys := none
    hashtags := none
    references := none
    search := none
    since := none
    until' := none
    authors := none
    limit := none }

/-- Models the `Default` impl, which delegates to `new`. -/
def SubscriptionFilter.default : SubscriptionFilter := SubscriptionFilter.new

def SubscriptionFilter.id' (f : SubscriptionFilter) (id : String) : SubscriptionFilter :=
  { f with ids := some [id] }

def SubscriptionFilter.ids' (f : SubscriptionFilter) (ids : List String) : SubscriptionFilter :=
  { f with ids := some ids }

def SubscriptionFilter.author' (f : SubscriptionFilter) (author : XOnlyPublicKey) :
    SubscriptionFilter :=
  { f with authors := some [author] }

def SubscriptionFilter.authors' (f : SubscriptionFilter) (authors : List XOnlyPublicKey) :
    SubscriptionFilter :=
  { f with authors := some authors }

def SubscriptionFilter.kind' (f : SubscriptionFilter) (kind : Kind) : SubscriptionFilter :=
  { f with kinds := some [kind] }

def SubscriptionFilter.kinds' (f : SubscriptionFilter) (kinds : List Kind) : SubscriptionFilter :=
  { f with kinds := some kinds }

def SubscriptionFilter.event' (f : SubscriptionFilter) (id : EventId) : SubscriptionFilter :=
  { f with events := some [id] }

def SubscriptionFilter.events' (f : SubscriptionFilter) (ids : List EventId) :
    SubscriptionFilter :=
  { f with events := some ids }

def SubscriptionFilter.pubkey' (f : SubscriptionFilter) (pubkey : XOnlyPublicKey) :
    SubscriptionFilter :=
  { f with pubkeys := some [pubkey] }

def SubscriptionFilter.pubkeys' (f : SubscriptionFilter) (pubkeys : List XOnlyPublicKey) :
    SubscriptionFilter :=
  { f with pubkeys := some pubkeys }

def SubscriptionFilter.hashtag' (f : SubscriptionFilter) (hashtag : String) :
    SubscriptionFilter :=
  { f with hashtags := some [hashtag] }

def SubscriptionFilter.hashtags' (f : SubscriptionFilter) (hashtags : List String) :
    SubscriptionFilter :=
  { f with hashtags := some hashtags }

def SubscriptionFilter.reference' (f : SubscriptionFilter) (v : String) : SubscriptionFilter :=
  { f with references := some [v] }

def SubscriptionFilter.references' (f : SubscriptionFilter) (v : List String) :
    SubscriptionFilter :=
  { f with references := some v }

def SubscriptionFilter.search' (f : SubscriptionFilter) (value : String) : SubscriptionFilter :=
  { f with search := some value }

def SubscriptionFilter.since' (f : SubscriptionFilter) (since : Timestamp) :
    SubscriptionFilter :=
  { f with since := some since }

def SubscriptionFilter.untilB (f : SubscriptionFilter) (u : Timestamp) :
    SubscriptionFilter :=
  { f with until' := some u }

def SubscriptionFilter.limit' (f : SubscriptionFilter) (limit : Nat) : SubscriptionFilter :=
  { f with limit := some limit }

/-! ### JSON model of the filter's serde serialization -/

inductive Json where
  | null
  | jbool (b : Bool)
  | num (n : Int)
  | str (s : String)
  | arr (xs : List Json)
  | obj (fields : List (String × Json))

def optEntry (k : String) (o : Option Json) : List (String × Json) :=
  match o with
  | none => []
  | some j => [(k, j)]

def bytesHex (bs : List Nat) : String := String.mk (listFlat hexPair bs)

/-- The object entries emitted by the filter's derived `Serialize` impl:
declaration order, `skip_serializing_if = Option::is_none` on every field, and
the `#e`/`#p`/`#t`/`#r` renames. -/
def serializeFilter (f : SubscriptionFilter) : List (String × Json) :=
  optEntry "ids" (f.ids.map (fun v => Json.arr (v.map Json.str))) ++
    optEntry "authors"
      (f.authors.map (fun v => Json.arr (v.map (fun pk => Json.str (bytesHex pk.bytes))))) ++
    optEntry "kinds" (f.kinds.map (fun v => Json.arr (v.map (fun k => Json.num (Int.ofNat k))))) ++
    optEntry "#e"
      (f.events.map (fun v => Json.arr (v.map (fun e => Json.str (bytesHex e.bytes))))) ++
    optEntry "#p"
      (f.pubkeys.map (fun v => Json.arr (v.map (fun pk => Json.str (bytesHex pk.bytes))))) ++
    optEntry "#t" (f.hashtags.map (fun v => Json.arr (v.map Json.str))) ++
    optEntry "#r" (f.references.map (fun v => Json.arr (v.map Json.str))) ++
    optEntry "search" (f.search.map Json.str) ++
    optEntry "since" (f.since.map Json.num) ++
    optEntry "until" (f.until'.map Json.num) ++
    optEntry "limit" (f.limit.map (fun n => Json.num (Int.ofNat n)))

def filterKeys : List String :=
  ["ids", "authors", "kinds", "#e", "#p", "#t", "#r", "search", "since", "until", "limit"]

def jStr : Json → Option String
  | Json.str s => some s
  | _ => none

def jStrArr (j : Json) : Option (List String) :=
  match j with
  | Json.arr xs => mapOpt jStr xs
  | _ => none

def jPk (j : Json) : Option XOnlyPublicKey :=
  match j with
  | Json.str s =>
    match hexBytesList s.toList with
    | none => none
    | some bs => (XOnlyPublicKey.fromSlice bs).toOption
  | _ => none

def jPkArr (j : Json) : Option (List XOnlyPublicKey) :=
  match j with
  | Json.arr xs => mapOpt jPk xs
  | _ => none

def jEid (j : Json) : Option EventId :=
  match j with
  | Json.str s =>
    match hexBytesList s.toList with
    | none => none
    | some bs => (EventId.fromSlice bs).toOption
  | _ => none

def jEidArr (j : Json) : Option (List EventId) :=
  match j with
  | Json.arr xs => mapOpt jEid xs
  | _ => none

def jKind (j : Json) : Option Kind :=
  match j with
  | Json.num n => if 0 ≤ n ∧ n < 65536 then some n.toNat else none
  | _ => none

def jKindArr (j : Json) : Option (List Kind) :=
  match j with
  | Json.arr xs => mapOpt jKind xs
  | _ => none

def jTime (j : Json) : Option Timestamp :=
  match j with
  | Json.num n => some n
  | _ => none

def jUsize (j : Json) : Option Nat :=
  match j with
  | Json.num n => if 0 ≤ n then some n.toNat else none
  | _ => none

/-- Parse the value of an `Option` field: JSON `null` yields `None`. -/
def optField (p : Json → Option α) (j : Json) : Option (Option α) :=
  match j with
  | Json.null => some none
  | _ => (p j).map some

/-- Process one object entry the way the derived `Deserialize` impl does:
a known key must not repeat and its value must parse; unknown keys are
ignored. -/
def applyKey (st : SubscriptionFilter × List String) (k : String) (j : Json) :
    Option (SubscriptionFilter × List String) :=
  let f := st.1
  let seen := st.2
  if k = "ids" then
    if k ∈ seen then none
    else (optField jStrArr j).map (fun v => ({ f with ids := v }, k :: seen))
  else if k = "authors" then
    if k ∈ seen then none
    else (optField jPkArr j).map (fun v => ({ f with authors := v }, k :: seen))
  else if k = "kinds" then
    if k ∈ seen then none
    else (optField jKindArr j).map (fun v => ({ f with kinds := v }, k :: seen))
  else if k = "#e" then
    if k ∈ seen then none
    else (optField jEidArr j).map (fun v => ({ f with events := v }, k :: seen))
  else if k = "#p" then
    if k ∈ seen then none
    else (optField jPkArr j).map (fun v => ({ f with pubkeys := v }, k :: seen))
  else if k = "#t" then
    if k ∈ seen then none
    else (optField jStrArr j).map (fun v => ({ f with hashtags := v }, k :: seen))
  else if k = "#r" then
    if k ∈ seen then none
    else (optField jStrArr j).map (fun v => ({ f with references := v }, k :: seen))
  else if k = "search" then
    if k ∈ seen then none
    else (optField jStr j).map (fun v => ({ f with search := v }, k :: seen))
  else if k = "since" then
    if k ∈ seen then none
    else (optField jTime j).map (fun v => ({ f with since := v }, k :: seen))
  else if k = "until" then
    if k ∈ seen then none
    else (optField jTime j).map (fun v => ({ f with until' := v }, k :: seen))
  else if k = "limit" then
    if k ∈ seen then none
    else (optField jUsize j).map (fun v => ({ f with limit := v }, k :: seen))
  else some st

def deserFold (st : SubscriptionFilter × List String) :
    List (String × Json) → Option (SubscriptionFilter × List String)
  | [] => some st
  | (k, j) :: rest =>
    match applyKey st k j with
    | none => none
    | some st2 => deserFold st2 rest

/-- Deserialization of a JSON object into a filter (missing `Option` fields
default to `None`; unknown keys are ignored; duplicate known keys fail). -/
def deserializeFilter (kvs : List (String × Json)) : Option SubscriptionFilter :=
  (deserFold (SubscriptionFilter.new, []) kvs).map (fun st => st.1)

/-- The profile TLV byte sequence as the specification words it: `(0x00, 0x20,
pubkey[32])` then, per relay URL, `(0x01, length-of-url-bytes, url-bytes)`. -/
def specProfileTLV (p : Profile) : List Nat :=
  [0, 32] ++ p.public_key.bytes ++ listFlat (fun r => 1 :: r.length :: r) p.relays

/-- A profile with one 256-byte relay URL, for the TLV length-byte claim. -/
def c2cexProfile : Profile := ⟨pk3bf0, [List.replicate 256 98]⟩

/-- Concrete profile used to witness the amended round-trip claim. -/
def wProfile : Profile := ⟨pkAa4f, [asciiBytes "wss://relay.example.com"]⟩

/-- Concrete nevent used to witness the amended round-trip claim. -/
def wEvent : Nip19Event := ⟨eidD94a, [asciiBytes "wss://nostr.example.org"]⟩

/-- A valid Bech32m string, used to witness the wrong-variant rejection claim. -/
def wC4str : List Char := (bech32Encode "test".toList [] .bech32m).getD []

/-! ### Lemmas about the base32 regrouping -/

theorem natToBits_length (w v : Nat) : (natToBits w v).length = w := by
  induction w generalizing v with
  | zero => rfl
  | succ w ih => simp [natToBits, ih]

theorem bitsToNat_natToBits {w v : Nat} (h : v < 2 ^ w) :
    bitsToNat (natToBits w v) = v := by
  induction w generalizing v with
  | zero =>
    have : v = 0 := by omega
    subst this; rfl
  | succ w ih =>
    have hlt : v % 2 ^ w < 2 ^ w := Nat.mod_lt _ (Nat.pos_pow_of_pos w (by omega))
    have hdm := Nat.div_add_mod v (2 ^ w)
    have hdiv : v / 2 ^ w < 2 := by
      apply Nat.div_lt_of_lt_mul
      rw [Nat.pow_succ] at h
      omega
    have hd : v / 2 ^ w = 0 ∨ v / 2 ^ w = 1 := by
      cases h2 : v / 2 ^ w with
      | zero => exact Or.inl rfl
      | succ k =>
        right
        have hk : k + 1 < 2 := h2 ▸ hdiv
        omega
    rcases hd with hd | hd <;>
      rw [natToBits, bitsToNat, natToBits_length, ih hlt, hd] <;>
      rw [hd] at hdm <;> simp <;> omega

theorem bitsToNat_lt (bs : List Bool) : bitsToNat bs < 2 ^ bs.length := by
  induction bs with
  | nil => simp [bitsToNat]
  | cons b bs ih =>
    simp only [bitsToNat, List.length_cons, Nat.pow_succ]
    cases b <;> simp <;> omega

theorem natToBits_bitsToNat5 {bs : List Bool} (h : bs.length = 5) :
    natToBits 5 (bitsToNat bs) = bs := by
  rcases bs with _ | ⟨a, _ | ⟨b, _ | ⟨c, _ | ⟨d, _ | ⟨e, _ | ⟨f, t⟩⟩⟩⟩⟩⟩ <;>
    simp at h
  cases a <;> cases b <;> cases c <;> cases d <;> cases e <;> rfl

theorem chunks5_append5 {bs : List Bool} (rest : List Bool) (h : bs.length = 5) :
    chunks5 (bs ++ rest) = bitsToNat bs :: chunks5 rest := by
  rcases bs with _ | ⟨a, _ | ⟨b, _ | ⟨c, _ | ⟨d, _ | ⟨e, _ | ⟨f, t⟩⟩⟩⟩⟩⟩ <;>
    simp at h
  rfl

theorem chunks8_append8 {bs : List Bool} (rest : List Bool) (h : bs.length = 8) :
    chunks8 (bs ++ rest) = bitsToNat bs :: chunks8 rest := by
  rcases bs with _ | ⟨a, _ | ⟨b, _ | ⟨c, _ | ⟨d, _ | ⟨e, _ | ⟨f, _ | ⟨g, _ | ⟨i, _ | ⟨j, t⟩⟩⟩⟩⟩⟩⟩⟩⟩ <;>
    simp at h
  rfl

theorem chunks5_lt_aux :
    ∀ n bits, (bits : List Bool).length ≤ n → ∀ v ∈ chunks5 bits, v < 32 := by
  intro n
  induction n with
  | zero =>
    intro bits h v hv
    rcases bits with _ | ⟨a, t⟩
    · simp [chunks5] at hv
    · simp at h
  | succ n ih =>
    intro bits h v hv
    rcases bits with _ | ⟨b1, _ | ⟨b2, _ | ⟨b3, _ | ⟨b4, _ | ⟨b5, rest⟩⟩⟩⟩⟩
    · simp [chunks5] at hv
    · rw [show chunks5 [b1] = [bitsToNat [b1]] from rfl] at hv
      simp at hv
      subst hv
      have := bitsToNat_lt [b1]
      simp at this
      omega
    · rw [show chunks5 [b1, b2] = [bitsToNat [b1, b2]] from rfl] at hv
      simp at hv
      subst hv
      have := bitsToNat_lt [b1, b2]
      simp at this
      omega
    · rw [show chunks5 [b1, b2, b3] = [bitsToNat [b1, b2, b3]] from rfl] at hv
      simp at hv
      subst hv
      have := bitsToNat_lt [b1, b2, b3]
      simp at this
      omega
    · rw [show chunks5 [b1, b2, b3, b4] = [bitsToNat [b1, b2, b3, b4]] from rfl] at hv
      simp at hv
      subst hv
      have := bitsToNat_lt [b1, b2, b3, b4]
      simp at this
      omega
    · rw [chunks5] at hv
      simp only [List.mem_cons] at hv
      rcases hv with hv | hv
      · subst hv
        have := bitsToNat_lt [b1, b2, b3, b4, b5]
        simp at this
        omega
      · exact ih rest (by simp only [List.length_cons] at h; omega) v hv

theorem chunks5_lt (bits : List Bool) : ∀ v ∈ chunks5 bits, v < 32 :=
  chunks5_lt_aux bits.length bits le_rfl

theorem flat5_chunks5 :
    ∀ n bits, bits.length ≤ n → bits.length % 5 = 0 →
      listFlat (natToBits 5) (chunks5 bits) = bits := by
  intro n
  induction n with
  | zero =>
    intro bits h h5
    rcases bits with _ | ⟨a, t⟩
    · rfl
    · simp at h
  | succ n ih =>
    intro bits h h5
    rcases bits with _ | ⟨b1, _ | ⟨b2, _ | ⟨b3, _ | ⟨b4, _ | ⟨b5, rest⟩⟩⟩⟩⟩
    · rfl
    · simp only [List.length_cons, List.length_nil] at h5; omega
    · simp only [List.length_cons, List.length_nil] at h5; omega
    · simp only [List.length_cons, List.length_nil] at h5; omega
    · simp only [List.length_cons, List.length_nil] at h5; omega
    · simp only [List.length_cons] at h h5
      rw [chunks5, listFlat]
      have h5x : natToBits 5 (bitsToNat [b1, b2, b3, b4, b5]) = [b1, b2, b3, b4, b5] :=
        natToBits_bitsToNat5 rfl
      rw [h5x, ih rest (by omega) (by omega)]
      simp

theorem chunks8_flat8 :
    ∀ bytes : List Nat, (∀ b ∈ bytes, b < 256) →
      chunks8 (listFlat (natToBits 8) bytes) = bytes := by
  intro bytes hb
  induction bytes with
  | nil => rfl
  | cons b bs ih =>
    rw [listFlat, chunks8_append8 _ (natToBits_length 8 b),
      bitsToNat_natToBits (by have := hb b (by simp); omega : b < 2 ^ 8),
      ih (fun x hx => hb x (by simp [hx]))]

theorem listFlat_length8 (bytes : List Nat) :
    (listFlat (natToBits 8) bytes).length = 8 * bytes.length := by
  induction bytes with
  | nil => rfl
  | cons b bs ih => simp [listFlat, natToBits_length, ih]; ring

theorem anyRepFalse (n : Nat) : (List.replicate n false).any id = false := by
  induction n with
  | zero => rfl
  | succ n ih => simp [List.replicate, ih]

theorem toBase32_lt (bytes : List Nat) : ∀ v ∈ toBase32 bytes, v < 32 := by
  intro v hv
  exact chunks5_lt _ v hv

theorem fromBase32_toBase32 {bytes : List Nat} (hb : ∀ b ∈ bytes, b < 256) :
    fromBase32 (toBase32 bytes) = some bytes := by
  have hall : (toBase32 bytes).all (fun v => decide (v < 32)) = true := by
    rw [List.all_eq_true]
    intro v hv
    simpa using toBase32_lt bytes v hv
  unfold fromBase32
  rw [hall]
  simp only [if_true]
  set bits := listFlat (natToBits 8) bytes with hbits
  set pad := (5 - bits.length % 5) % 5 with hpad
  have hlen8 : bits.length = 8 * bytes.length := listFlat_length8 bytes
  have hpadded : (bits ++ List.replicate pad false).length % 5 = 0 := by
    simp [hpad]
    omega
  have hflat : listFlat (natToBits 5) (toBase32 bytes) = bits ++ List.replicate pad false := by
    unfold toBase32
    exact flat5_chunks5 (bits ++ List.replicate pad false).length _ le_rfl hpadded
  rw [hflat]
  have hlen : (bits ++ List.replicate pad false).length = bits.length + pad := by simp
  have hpadlt : pad < 5 := by omega
  have hr : (bits.length + pad) % 8 = pad := by omega
  rw [hlen, hr]
  have h5r : ¬ 5 ≤ pad := by omega
  rw [if_neg h5r]
  have htake : (bits ++ List.replicate pad false).take (bits.length + pad - pad) = bits := by
    have : bits.length + pad - pad = bits.length := by omega
    rw [this]
    exact List.take_left _ _
  have hdrop : (bits ++ List.replicate pad false).drop (bits.length + pad - pad) =
      List.replicate pad false := by
    have : bits.length + pad - pad = bits.length := by omega
    rw [this]
    exact List.drop_left _ _
  rw [hdrop, anyRepFalse]
  simp only [Bool.false_eq_true, if_false]
  rw [htake, chunks8_flat8 bytes hb]

/-! ### Lemmas about the bech32 polymod checksum -/

theorem xorLeftComm (a b c : Nat) : a ^^^ (b ^^^ c) = b ^^^ (a ^^^ c) := by
  rw [← Nat.xor_assoc, Nat.xor_comm a b, Nat.xor_assoc]

theorem xorAnd (a b c : Nat) : (a ^^^ b) &&& c = (a &&& c) ^^^ (b &&& c) := by
  apply Nat.eq_of_testBit_eq
  intro i
  simp only [Nat.testBit_and, Nat.testBit_xor]
  cases a.testBit i <;> cases b.testBit i <;> cases c.testBit i <;> rfl

theorem xorShiftL (a b n : Nat) : (a ^^^ b) <<< n = (a <<< n) ^^^ (b <<< n) := by
  apply Nat.eq_of_testBit_eq
  intro i
  simp only [Nat.testBit_shiftLeft, Nat.testBit_xor]
  cases decide (i ≥ n) <;> simp

theorem xorShiftR (a b n : Nat) : (a ^^^ b) >>> n = (a >>> n) ^^^ (b >>> n) := by
  apply Nat.eq_of_testBit_eq
  intro i
  simp only [Nat.testBit_shiftRight, Nat.testBit_xor]

theorem genXor_zero : genXor 0 = 0 := by
  simp [genXor, Nat.zero_testBit]

theorem iteXor (p q : Bool) (G : Nat) :
    (if (p ^^ q) = true then G else 0) =
      (if p = true then G else 0) ^^^ (if q = true then G else 0) := by
  cases p <;> cases q <;> simp [Nat.xor_self]

theorem genXor_xor (a b : Nat) : genXor (a ^^^ b) = genXor a ^^^ genXor b := by
  simp only [genXor, Nat.testBit_xor, iteXor]
  ac_rfl

theorem stepXor (a b v w : Nat) :
    b32Step (a ^^^ b) (v ^^^ w) = b32Step a v ^^^ b32Step b w := by
  unfold b32Step
  rw [xorAnd, xorShiftL, xorShiftR, genXor_xor]
  ac_rfl

theorem foldXor :
    ∀ (vs ws : List Nat) (a b : Nat), vs.length = ws.length →
      List.foldl b32Step (a ^^^ b) (List.zipWith (fun x y => x ^^^ y) vs ws) =
        List.foldl b32Step a vs ^^^ List.foldl b32Step b ws := by
  intro vs
  induction vs with
  | nil =>
    intro ws a b h
    rcases ws with _ | ⟨w, ws⟩
    · rfl
    · simp at h
  | cons v vs ih =>
    intro ws a b h
    rcases ws with _ | ⟨w, ws⟩
    · simp at h
    · rw [List.zipWith_cons_cons, List.foldl_cons, List.foldl_cons, List.foldl_cons,
        stepXor]
      exact ih ws _ _ (by simpa using h)

theorem zipXorZeroR :
    ∀ m : List Nat, List.zipWith (fun x y => x ^^^ y) m (List.replicate m.length 0) = m := by
  intro m
  induction m with
  | nil => rfl
  | cons v vs ih => simp [List.replicate, ih]

theorem zipXorZeroL :
    ∀ (cs : List Nat) (n : Nat), cs.length = n →
      List.zipWith (fun x y => x ^^^ y) (List.replicate n 0) cs = cs := by
  intro cs
  induction cs with
  | nil => intro n h; simp
  | cons c cs ih =>
    intro n h
    rcases n with _ | n
    · simp at h
    · rw [List.replicate, List.zipWith_cons_cons, Nat.zero_xor, ih n (by simpa using h)]

theorem b32Step_zero : b32Step 0 0 = 0 := by
  unfold b32Step
  rw [Nat.zero_and, Nat.zero_shiftLeft, Nat.zero_shiftRight, genXor_zero]
  decide

theorem foldZeros : ∀ n : Nat, List.foldl b32Step 0 (List.replicate n 0) = 0 := by
  intro n
  induction n with
  | zero => rfl
  | succ n ih => rw [List.replicate, List.foldl_cons, b32Step_zero, ih]

theorem maskLt {a : Nat} (h : a < 2 ^ 25) : a &&& 0x1ffffff = a := by
  have e : (0x1ffffff : Nat) = 2 ^ 25 - 1 := by norm_num
  apply Nat.eq_of_testBit_eq
  intro i
  rw [Nat.testBit_and, e, Nat.testBit_two_pow_sub_one]
  by_cases hi : i < 25
  · simp [hi]
  · have : a.testBit i = false :=
      Nat.testBit_eq_false_of_lt
        (lt_of_lt_of_le h (Nat.pow_le_pow_right (by norm_num) (by omega)))
    simp [this]

theorem shrZero {a : Nat} (h : a < 2 ^ 25) : a >>> 25 = 0 := by
  rw [Nat.shiftRight_eq_div_pow]
  exact Nat.div_eq_of_lt h

theorem stepSmall {a : Nat} (h : a < 2 ^ 25) (v : Nat) :
    b32Step a v = (a <<< 5) ^^^ v := by
  unfold b32Step
  rw [maskLt h, shrZero h, genXor_zero, Nat.xor_zero]

theorem genXor_lt (b : Nat) : genXor b < 2 ^ 30 := by
  unfold genXor
  split <;> split <;> split <;> split <;> split <;> decide

theorem step_lt (chk : Nat) {v : Nat} (hv : v < 2 ^ 30) : b32Step chk v < 2 ^ 30 := by
  unfold b32Step
  have h1 : chk &&& 0x1ffffff ≤ 0x1ffffff := Nat.and_le_right
  have h2 : (chk &&& 0x1ffffff) <<< 5 < 2 ^ 30 := by
    rw [Nat.shiftLeft_eq]
    calc (chk &&& 0x1ffffff) * 2 ^ 5 ≤ 0x1ffffff * 2 ^ 5 := Nat.mul_le_mul_right _ h1
      _ < 2 ^ 30 := by norm_num
  exact Nat.xor_lt_two_pow (Nat.xor_lt_two_pow h2 hv) (genXor_lt _)

theorem foldStep_lt :
    ∀ (vs : List Nat) (a : Nat), a < 2 ^ 30 → (∀ v ∈ vs, v < 2 ^ 30) →
      List.foldl b32Step a vs < 2 ^ 30 := by
  intro vs
  induction vs with
  | nil => intro a ha _; exact ha
  | cons v vs ih =>
    intro a ha hv
    rw [List.foldl_cons]
    exact ih _ (step_lt a (hv v (by simp))) (fun x hx => hv x (by simp [hx]))

theorem polymod_lt {vs : List Nat} (h : ∀ v ∈ vs, v < 2 ^ 30) : b32Polymod vs < 2 ^ 30 :=
  foldStep_lt vs 1 (by norm_num) h

theorem xorNibbles (x : Nat) (hx : x < 2 ^ 30) :
    (((((x >>> 25 &&& 31) <<< 5 ^^^ x >>> 20 &&& 31) <<< 5 ^^^ x >>> 15 &&& 31) <<< 5 ^^^
      x >>> 10 &&& 31) <<< 5 ^^^ x >>> 5 &&& 31) <<< 5 ^^^ x &&& 31 = x := by
  have e31 : (31 : Nat) = 2 ^ 5 - 1 := by norm_num
  apply Nat.eq_of_testBit_eq
  intro i
  simp only [Nat.testBit_xor, Nat.testBit_shiftLeft, Nat.testBit_and, Nat.testBit_shiftRight,
    e31, Nat.testBit_two_pow_sub_one, Nat.sub_sub]
  by_cases hi : i < 30
  · interval_cases i <;> simp
  · have hxf : x.testBit i = false :=
      Nat.testBit_eq_false_of_lt
        (lt_of_lt_of_le hx (Nat.pow_le_pow_right (by norm_num) (by omega)))
    have d0 : ¬ i < 5 := by omega
    have d1 : ¬ i - 5 < 5 := by omega
    have d2 : ¬ i - (5 + 5) < 5 := by omega
    have d3 : ¬ i - (5 + (5 + 5)) < 5 := by omega
    have d4 : ¬ i - (5 + (5 + (5 + 5))) < 5 := by omega
    have d5 : ¬ i - (5 + (5 + (5 + (5 + 5)))) < 5 := by omega
    simp [hxf, d0, d1, d2, d3, d4, d5]

theorem csFold (x : Nat) (hx : x < 2 ^ 30) :
    List.foldl b32Step 0 ((List.range 6).map (fun i => (x >>> (5 * (5 - i))) &&& 31)) = x := by
  have e : (List.range 6).map (fun i => (x >>> (5 * (5 - i))) &&& 31) =
      [(x >>> 25) &&& 31, (x >>> 20) &&& 31, (x >>> 15) &&& 31,
        (x >>> 10) &&& 31, (x >>> 5) &&& 31, (x >>> 0) &&& 31] := rfl
  rw [e, Nat.shiftRight_zero]
  have hb1 : (x >>> 25) &&& 31 < 2 ^ 25 :=
    lt_of_le_of_lt Nat.and_le_right (by norm_num)
  have hs : ∀ a c : Nat, a < 2 ^ 20 → c ≤ 31 → (a <<< 5) ^^^ c < 2 ^ 25 := by
    intro a c ha hc
    apply Nat.xor_lt_two_pow
    · rw [Nat.shiftLeft_eq]
      calc a * 2 ^ 5 ≤ (2 ^ 20 - 1) * 2 ^ 5 := Nat.mul_le_mul_right _ (by omega)
        _ < 2 ^ 25 := by norm_num
    · exact lt_of_le_of_lt hc (by norm_num)
  have hs' : ∀ a c k : Nat, a < 2 ^ k → c ≤ 31 → k + 5 ≤ 25 → (a <<< 5) ^^^ c < 2 ^ (k + 5) := by
    intro a c k ha hc _
    apply Nat.xor_lt_two_pow
    · rw [Nat.shiftLeft_eq]
      have h1 : a * 2 ^ 5 ≤ (2 ^ k - 1) * 2 ^ 5 := Nat.mul_le_mul_right _ (by omega)
      have h2 : (2 ^ k - 1) * 2 ^ 5 < 2 ^ k * 2 ^ 5 := by
        have hk : 0 < 2 ^ k := Nat.pos_pow_of_pos k (by omega)
        have h32 : (0 : Nat) < 2 ^ 5 := by norm_num
        exact (Nat.mul_lt_mul_right h32).mpr (by omega)
      calc a * 2 ^ 5 ≤ (2 ^ k - 1) * 2 ^ 5 := h1
        _ < 2 ^ k * 2 ^ 5 := h2
        _ = 2 ^ (k + 5) := by rw [← Nat.pow_add]
    · calc c ≤ 31 := hc
        _ < 2 ^ 5 := by norm_num
        _ ≤ 2 ^ (k + 5) := Nat.pow_le_pow_right (by norm_num) (by omega)
  have c5b : (x >>> 25) &&& 31 < 2 ^ 5 := lt_of_le_of_lt Nat.and_le_right (by norm_num)
  have s2b : ((((x >>> 25) &&& 31) <<< 5) ^^^ ((x >>> 20) &&& 31)) < 2 ^ 10 :=
    hs' _ _ 5 c5b Nat.and_le_right (by omega)
  have s3b := hs' _ ((x >>> 15) &&& 31) 10 s2b Nat.and_le_right (by omega)
  have s4b := hs' _ ((x >>> 10) &&& 31) 15 s3b Nat.and_le_right (by omega)
  have s5b := hs' _ ((x >>> 5) &&& 31) 20 s4b Nat.and_le_right (by omega)
  simp only [List.foldl_cons, List.foldl_nil]
  rw [stepSmall (show (0 : Nat) < 2 ^ 25 by norm_num), Nat.zero_shiftLeft, Nat.zero_xor]
  rw [stepSmall hb1]
  rw [stepSmall (lt_of_lt_of_le s2b (by norm_num : (2 : Nat) ^ 10 ≤ 2 ^ 25))]
  rw [stepSmall (lt_of_lt_of_le s3b (by norm_num : (2 : Nat) ^ (10 + 5) ≤ 2 ^ 25))]
  rw [stepSmall (lt_of_lt_of_le s4b (by norm_num : (2 : Nat) ^ (15 + 5) ≤ 2 ^ 25))]
  rw [stepSmall (lt_of_lt_of_le s5b (by norm_num : (2 : Nat) ^ (20 + 5) ≤ 2 ^ 25))]
  exact xorNibbles x hx

theorem createChecksum_length (hrp : List Char) (data : List Nat) (v : Variant) :
    (createChecksum hrp data v).length = 6 := by
  simp [createChecksum]

theorem createChecksum_lt (hrp : List Char) (data : List Nat) (v : Variant) :
    ∀ c ∈ createChecksum hrp data v, c < 32 := by
  intro c hc
  simp only [createChecksum, List.mem_map] at hc
  obtain ⟨i, _, rfl⟩ := hc
  exact lt_of_le_of_lt Nat.and_le_right (by norm_num)

theorem variantConst_lt (v : Variant) : variantConst v < 2 ^ 30 := by
  cases v <;> decide

theorem verifyCreate (hrp : List Char) (data : List Nat) (v : Variant)
    (hd : ∀ x ∈ hrpExpand hrp ++ data, x < 32) :
    b32Polymod (hrpExpand hrp ++ data ++ createChecksum hrp data v) = variantConst v := by
  have hcsLen : (createChecksum hrp data v).length = 6 := createChecksum_length hrp data v
  have hplm : b32Polymod (hrpExpand hrp ++ data ++ List.replicate 6 0) < 2 ^ 30 := by
    apply polymod_lt
    intro x hx
    rcases List.mem_append.mp hx with hx | hx
    · exact lt_of_lt_of_le (hd x hx) (by norm_num)
    · rw [List.eq_of_mem_replicate hx]
      norm_num
  have hx30 : b32Polymod (hrpExpand hrp ++ data ++ List.replicate 6 0) ^^^ variantConst v <
      2 ^ 30 := Nat.xor_lt_two_pow hplm (variantConst_lt v)
  have hrep : [0, 0, 0, 0, 0, 0] = List.replicate 6 (0 : Nat) := rfl
  have hfold0 : List.foldl b32Step 0 (createChecksum hrp data v) =
      b32Polymod (hrpExpand hrp ++ data ++ List.replicate 6 0) ^^^ variantConst v := by
    show List.foldl b32Step 0
        ((List.range 6).map (fun i =>
          ((b32Polymod (hrpExpand hrp ++ data ++ [0, 0, 0, 0, 0, 0]) ^^^ variantConst v) >>>
            (5 * (5 - i))) &&& 31)) =
      b32Polymod (hrpExpand hrp ++ data ++ List.replicate 6 0) ^^^ variantConst v
    rw [hrep]
    exact csFold _ hx30
  have hzip : hrpExpand hrp ++ data ++ createChecksum hrp data v =
      List.zipWith (fun x y => x ^^^ y)
        ((hrpExpand hrp ++ data) ++ List.replicate 6 0)
        (List.replicate (hrpExpand hrp ++ data).length 0 ++ createChecksum hrp data v) := by
    rw [List.zipWith_append _ _ _ _ _ (by simp), zipXorZeroR,
      zipXorZeroL _ 6 hcsLen]
  unfold b32Polymod at hfold0 hplm hx30 ⊢
  rw [hzip]
  calc List.foldl b32Step 1
        (List.zipWith (fun x y => x ^^^ y)
          ((hrpExpand hrp ++ data) ++ List.replicate 6 0)
          (List.replicate (hrpExpand hrp ++ data).length 0 ++ createChecksum hrp data v)) =
      List.foldl b32Step (1 ^^^ 0)
        (List.zipWith (fun x y => x ^^^ y)
          ((hrpExpand hrp ++ data) ++ List.replicate 6 0)
          (List.replicate (hrpExpand hrp ++ data).length 0 ++ createChecksum hrp data v)) := by
        rw [Nat.xor_zero]
    _ = List.foldl b32Step 1 ((hrpExpand hrp ++ data) ++ List.replicate 6 0) ^^^
        List.foldl b32Step 0
          (List.replicate (hrpExpand hrp ++ data).length 0 ++ createChecksum hrp data v) :=
      foldXor _ _ 1 0 (by simp only [List.length_append, List.length_replicate, hcsLen])
    _ = variantConst v := by
        have h2nd : List.foldl b32Step 0
            (List.replicate (hrpExpand hrp ++ data).length 0 ++ createChecksum hrp data v) =
            List.foldl b32Step 1 (hrpExpand hrp ++ data ++ List.replicate 6 0) ^^^
              variantConst v := by
          rw [List.foldl_append, foldZeros, hfold0]
        rw [h2nd, ← Nat.xor_assoc, Nat.xor_self, Nat.zero_xor]

/-! ### Lemmas: decoding inverts encoding -/

theorem charsetRev_charsetChar : ∀ v, v < 32 → charsetRev (charsetChar v) = some v := by
  decide

theorem charsetChar_facts :
    ∀ v, v < 32 → isUpperA (charsetChar v) = false ∧ charsetChar v ≠ '1' ∧
      toLowerA (charsetChar v) = charsetChar v := by
  decide

theorem toLowerA_id {c : Char} (h : isUpperA c = false) : toLowerA c = c := by
  simp [toLowerA, h]

theorem mapId {f : α → α} : ∀ l : List α, (∀ c ∈ l, f c = c) → l.map f = l := by
  intro l h
  induction l with
  | nil => rfl
  | cons c rest ih =>
    rw [List.map_cons, h c (by simp), ih (fun x hx => h x (by simp [hx]))]

theorem splitLast1_none : ∀ l : List Char, '1' ∉ l → splitLast1 l = none := by
  intro l h
  induction l with
  | nil => rfl
  | cons c rest ih =>
    have h1 : '1' ∉ rest := fun hm => h (List.mem_cons.mpr (Or.inr hm))
    have h2 : ¬ (c = '1') := fun hc => h (by simp [hc])
    rw [splitLast1, ih h1]
    exact if_neg h2

theorem splitLast1_append :
    ∀ (hrp payload : List Char), '1' ∉ payload →
      splitLast1 (hrp ++ '1' :: payload) = some (hrp, payload) := by
  intro hrp
  induction hrp with
  | nil =>
    intro payload h
    rw [List.nil_append, splitLast1, splitLast1_none payload h]
    exact if_pos rfl
  | cons c hrp ih =>
    intro payload h
    rw [List.cons_append, splitLast1, ih payload h]

theorem mapOpt_map {f : β → Option α} {g : α → β} :
    ∀ xs : List α, (∀ x ∈ xs, f (g x) = some x) → mapOpt f (xs.map g) = some xs := by
  intro xs h
  induction xs with
  | nil => rfl
  | cons x rest ih =>
    rw [List.map_cons, mapOpt, h x (by simp), ih (fun y hy => h y (by simp [hy]))]

theorem hrpExpand_lt {hrp : List Char} (hok : hrpOkB hrp = true) :
    ∀ x ∈ hrpExpand hrp, x < 32 := by
  intro x hx
  simp only [hrpOkB, Bool.and_eq_true, List.all_eq_true, decide_eq_true_eq] at hok
  obtain ⟨-, hchars⟩ := hok
  unfold hrpExpand at hx
  rcases List.mem_append.mp hx with hx | hx
  · rcases List.mem_append.mp hx with hx | hx
    · obtain ⟨c, hc, rfl⟩ := List.mem_map.mp hx
      obtain ⟨-, h126⟩ := hchars c hc
      rw [Nat.shiftRight_eq_div_pow]
      omega
    · simp at hx
      omega
  · obtain ⟨c, hc, rfl⟩ := List.mem_map.mp hx
    exact lt_of_le_of_lt Nat.and_le_right (by norm_num)

theorem bech32Decode_encode {hrp : List Char} {data : List Nat} {v : Variant} {s : List Char}
    (h : bech32Encode hrp data v = some s) : bech32Decode s = some (hrp, data, v) := by
  unfold bech32Encode at h
  split at h
  case isFalse => exact absurd h (by simp)
  case isTrue hcond =>
    injection h with hs
    subst hs
    simp only [Bool.and_eq_true, List.all_eq_true, decide_eq_true_eq] at hcond
    obtain ⟨⟨hok, hnoup⟩, hdlt⟩ := hcond
    have hnoup' : ∀ c ∈ hrp, isUpperA c = false := by
      intro c hc
      have := hnoup c hc
      simpa using this
    have hcs_lt : ∀ c ∈ createChecksum hrp data v, c < 32 := createChecksum_lt hrp data v
    have hall_lt : ∀ d ∈ data ++ createChecksum hrp data v, d < 32 := by
      intro d hd
      rcases List.mem_append.mp hd with hd | hd
      · exact hdlt d hd
      · exact hcs_lt d hd
    set payload : List Char := (data ++ createChecksum hrp data v).map charsetChar with hpayload
    have hpay_noup : ∀ c ∈ payload, isUpperA c = false := by
      intro c hc
      obtain ⟨d, hd, rfl⟩ := List.mem_map.mp hc
      exact (charsetChar_facts d (hall_lt d hd)).1
    have hpay_no1 : '1' ∉ payload := by
      intro hc
      obtain ⟨d, hd, hd1⟩ := List.mem_map.mp hc
      exact (charsetChar_facts d (hall_lt d hd)).2.1 hd1
    have hanyUp : (hrp ++ '1' :: payload).any isUpperA = false := by
      rw [List.any_eq_false]
      intro c hc
      rcases List.mem_append.mp hc with hc | hc
      · simp [hnoup' c hc]
      · rcases List.mem_cons.mp hc with hc | hc
        · subst hc; decide
        · simp [hpay_noup c hc]
    have hmapLow : (hrp ++ '1' :: payload).map toLowerA = hrp ++ '1' :: payload := by
      apply mapId
      intro c hc
      rcases List.mem_append.mp hc with hc | hc
      · exact toLowerA_id (hnoup' c hc)
      · rcases List.mem_cons.mp hc with hc | hc
        · subst hc; rfl
        · exact toLowerA_id (hpay_noup c hc)
    have hrev : mapOpt charsetRev payload = some (data ++ createChecksum hrp data v) := by
      apply mapOpt_map
      intro x hx
      exact charsetRev_charsetChar x (hall_lt x hx)
    have hlen : (data ++ createChecksum hrp data v).length =
        data.length + 6 := by
      simp [createChecksum_length]
    have hverify : verifyChecksum hrp (data ++ createChecksum hrp data v) = some v := by
      unfold verifyChecksum
      rw [← List.append_assoc, verifyCreate hrp data v]
      · cases v
        · rfl
        · rfl
      · intro x hx
        rcases List.mem_append.mp hx with hx | hx
        · exact hrpExpand_lt hok x hx
        · exact hdlt x hx
    have h6 : ¬ (data.length + 6 < 6) := by omega
    have htake : (data ++ createChecksum hrp data v).take (data.length + 6 - 6) = data := by
      have he : data.length + 6 - 6 = data.length := by omega
      rw [he]
      exact List.take_left _ _
    unfold bech32Decode
    rw [hanyUp]
    simp only [Bool.false_and, Bool.false_eq_true, if_false]
    rw [hmapLow, splitLast1_append hrp payload hpay_no1]
    simp only [hok, eq_self_iff_true, if_true, hrev, hlen]
    rw [if_neg h6]
    simp only [hverify]
    rw [htake]

/-! ### Lemmas: NIP-19 round trips -/

theorem SecretKey.fromSlice_self_sk (sk : SecretKey) : SecretKey.fromSlice sk.bytes = .ok sk := by
  cases sk with
  | mk bs h =>
    unfold SecretKey.fromSlice
    rw [dif_pos h]

theorem XOnlyPublicKey.fromSlice_self_pk (pk : XOnlyPublicKey) :
    XOnlyPublicKey.fromSlice pk.bytes = .ok pk := by
  cases pk with
  | mk bs h =>
    unfold XOnlyPublicKey.fromSlice
    rw [dif_pos h]

theorem EventId.fromSlice_self_eid (e : EventId) : EventId.fromSlice e.bytes = .ok e := by
  cases e with
  | mk bs h =>
    unfold EventId.fromSlice
    rw [dif_pos h]

theorem encode_toBase32 (hrp : List Char) (bytes : List Nat) (v : Variant)
    (hok : hrpOkB hrp = true) (hnoup : hrp.all (fun c => !isUpperA c) = true) :
    bech32Encode hrp (toBase32 bytes) v =
      some (hrp ++ '1' :: ((toBase32 bytes ++ createChecksum hrp (toBase32 bytes) v).map
        charsetChar)) := by
  unfold bech32Encode
  rw [if_pos]
  rw [hok, hnoup]
  simp only [Bool.true_and, List.all_eq_true, decide_eq_true_eq]
  intro d hd
  exact toBase32_lt bytes d hd

theorem sk_from_to (sk : SecretKey) {s : List Char}
    (h : bech32Encode nsecHrp (toBase32 sk.bytes) .bech32 = some s) :
    SecretKey.fromBech32 s = .ok sk := by
  unfold SecretKey.fromBech32
  rw [bech32Decode_encode h]
  simp only [eq_self_iff_true, and_self, if_true,
    fromBase32_toBase32 sk.okey.2.1, SecretKey.fromSlice_self_sk]

theorem pk_from_to (pk : XOnlyPublicKey) {s : List Char}
    (h : bech32Encode npubHrp (toBase32 pk.bytes) .bech32 = some s) :
    XOnlyPublicKey.fromBech32 s = .ok pk := by
  unfold XOnlyPublicKey.fromBech32
  rw [bech32Decode_encode h]
  simp only [eq_self_iff_true, and_self, if_true,
    fromBase32_toBase32 pk.okey.2.1, XOnlyPublicKey.fromSlice_self_pk]

theorem eid_from_to (e : EventId) {s : List Char}
    (h : bech32Encode noteHrp (toBase32 e.bytes) .bech32 = some s) :
    EventId.fromBech32 s = .ok e := by
  unfold EventId.fromBech32
  rw [bech32Decode_encode h]
  simp only [eq_self_iff_true, and_self, if_true,
    fromBase32_toBase32 e.okey.2, EventId.fromSlice_self_eid]

theorem sk_roundtrip (sk : SecretKey) :
    (SecretKey.toBech32 sk).bind SecretKey.fromBech32 = .ok sk := by
  have henc := encode_toBase32 nsecHrp sk.bytes .bech32 (by decide) (by decide)
  unfold SecretKey.toBech32
  rw [henc]
  exact sk_from_to sk henc

theorem pk_roundtrip (pk : XOnlyPublicKey) :
    (XOnlyPublicKey.toBech32 pk).bind XOnlyPublicKey.fromBech32 = .ok pk := by
  have henc := encode_toBase32 npubHrp pk.bytes .bech32 (by decide) (by decide)
  unfold XOnlyPublicKey.toBech32
  rw [henc]
  exact pk_from_to pk henc

theorem eid_roundtrip (e : EventId) :
    (EventId.toBech32 e).bind EventId.fromBech32 = .ok e := by
  have henc := encode_toBase32 noteHrp e.bytes .bech32 (by decide) (by decide)
  unfold EventId.toBech32
  rw [henc]
  exact eid_from_to e henc

/-- Validity of a relay-URL byte list as a Rust `String`: u8 values forming
valid UTF-8. -/
def isRustString (r : List Nat) : Prop := (∀ b ∈ r, b < 256) ∧ utf8Valid r = true

instance (r : List Nat) : Decidable (isRustString r) := by
  unfold isRustString; infer_instance

theorem parseRelays_flat (err : Nip19Error) :
    ∀ (rs : List (List Nat)) (fuel : Nat),
      (∀ r ∈ rs, isRustString r ∧ r.length ≤ 255) →
      (listFlat (fun r => 1 :: r.length % 256 :: r) rs).length ≤ fuel →
      parseRelaysF err fuel (listFlat (fun r => 1 :: r.length % 256 :: r) rs) = .ok rs := by
  intro rs
  induction rs with
  | nil =>
    intro fuel _ _
    cases fuel <;> rfl
  | cons r rest ih =>
    intro fuel hv hlen
    obtain ⟨⟨-, hr_utf8⟩, hr_len⟩ := hv r (by simp)
    have hmod : r.length % 256 = r.length := Nat.mod_eq_of_lt (by omega)
    rw [listFlat] at hlen ⊢
    simp only [List.cons_append] at hlen ⊢
    rcases fuel with _ | fuel
    · simp at hlen
    · rw [parseRelaysF, if_pos rfl, hmod]
      have hnlt : ¬ ((r ++ listFlat (fun r => 1 :: r.length % 256 :: r) rest).length <
          r.length) := by
        simp
      rw [if_neg hnlt]
      rw [List.take_left' rfl, List.drop_left' rfl]
      simp only [hr_utf8, if_true]
      rw [ih fuel (fun x hx => hv x (by simp [hx]))
        (by simp only [List.length_cons, List.length_append] at hlen; omega)]

theorem relaysFlat_lt {rs : List (List Nat)} (hv : ∀ r ∈ rs, isRustString r) :
    ∀ b ∈ listFlat (fun r => 1 :: r.length % 256 :: r) rs, b < 256 := by
  induction rs with
  | nil => intro b hb; simp [listFlat] at hb
  | cons r rest ih =>
    intro b hb
    rw [listFlat] at hb
    rcases List.mem_append.mp hb with hb | hb
    · rcases List.mem_cons.mp hb with hb | hb
      · omega
      · rcases List.mem_cons.mp hb with hb | hb
        · have : r.length % 256 < 256 := Nat.mod_lt _ (by omega)
          omega
        · exact (hv r (by simp)).1 b hb
    · exact ih (fun x hx => hv x (by simp [hx])) b hb

theorem profileTLV_lt (p : Profile) (hv : ∀ r ∈ p.relays, isRustString r) :
    ∀ b ∈ profileTLV p, b < 256 := by
  intro b hb
  unfold profileTLV at hb
  rcases List.mem_append.mp hb with hb | hb
  · rcases List.mem_append.mp hb with hb | hb
    · rcases List.mem_cons.mp hb with hb | hb
      · omega
      · rcases List.mem_cons.mp hb with hb | hb
        · omega
        · simp at hb
    · exact p.public_key.okey.2.1 b hb
  · exact relaysFlat_lt hv b hb

theorem eventTLV_lt (e : Nip19Event) (hv : ∀ r ∈ e.relays, isRustString r) :
    ∀ b ∈ eventTLV e, b < 256 := by
  intro b hb
  unfold eventTLV at hb
  rcases List.mem_append.mp hb with hb | hb
  · rcases List.mem_append.mp hb with hb | hb
    · rcases List.mem_cons.mp hb with hb | hb
      · omega
      · rcases List.mem_cons.mp hb with hb | hb
        · omega
        · simp at hb
    · exact e.event_id.okey.2 b hb
  · exact relaysFlat_lt hv b hb

theorem profile_from_to (p : Profile) {s : List Char}
    (hv : ∀ r ∈ p.relays, isRustString r ∧ r.length ≤ 255)
    (h : bech32Encode nprofileHrp (toBase32 (profileTLV p)) .bech32 = some s) :
    Profile.fromBech32 s = .ok p := by
  unfold Profile.fromBech32
  rw [bech32Decode_encode h]
  have htlv : fromBase32 (toBase32 (profileTLV p)) = some (profileTLV p) :=
    fromBase32_toBase32 (profileTLV_lt p (fun r hr => (hv r hr).1))
  simp only [eq_self_iff_true, and_self, if_true, htlv]
  show (match profileTLV p with
    | [] => Except.error Nip19Error.profileParse
    | t :: rest =>
      if t = 0 then
        match rest with
        | [] => Except.error Nip19Error.profileParse
        | l :: rest2 =>
          if l = 32 then
            if rest2.length < 32 then Except.error Nip19Error.profileParse
            else
              match XOnlyPublicKey.fromSlice (rest2.take 32) with
              | .error _ => Except.error Nip19Error.secpErr
              | .ok pk =>
                match parseRelaysF .profileParse (rest2.drop 32).length (rest2.drop 32) with
                | .error e => Except.error e
                | .ok relays => Except.ok ⟨pk, relays⟩
          else Except.error Nip19Error.profileParse
      else Except.error Nip19Error.profileParse) = Except.ok p
  have hpk32 : p.public_key.bytes.length = 32 := p.public_key.okey.1
  unfold profileTLV
  simp only [List.cons_append, List.nil_append]
  simp only [if_true]
  have hlen2 : ¬ ((p.public_key.bytes ++
      listFlat (fun r => 1 :: r.length % 256 :: r) p.relays).length < 32) := by
    simp [hpk32]
  rw [if_neg hlen2]
  rw [List.take_left' hpk32, XOnlyPublicKey.fromSlice_self_pk]
  rw [List.drop_left' hpk32]
  rw [parseRelays_flat _ p.relays _ hv le_rfl]

theorem event_from_to (e : Nip19Event) {s : List Char}
    (hv : ∀ r ∈ e.relays, isRustString r ∧ r.length ≤ 255)
    (h : bech32Encode neventHrp (toBase32 (eventTLV e)) .bech32 = some s) :
    Nip19Event.fromBech32 s = .ok e := by
  unfold Nip19Event.fromBech32
  rw [bech32Decode_encode h]
  have htlv : fromBase32 (toBase32 (eventTLV e)) = some (eventTLV e) :=
    fromBase32_toBase32 (eventTLV_lt e (fun r hr => (hv r hr).1))
  simp only [eq_self_iff_true, and_self, if_true, htlv]
  show (match eventTLV e with
    | [] => Except.error Nip19Error.eventParse
    | t :: rest =>
      if t = 0 then
        match rest with
        | [] => Except.error Nip19Error.eventParse
        | l :: rest2 =>
          if l = 32 then
            if rest2.length < 32 then Except.error Nip19Error.eventParse
            else
              match EventId.fromSlice (rest2.take 32) with
              | .error _ => Except.error Nip19Error.eventIdErr
              | .ok eid =>
                match parseRelaysF .eventParse (rest2.drop 32).length (rest2.drop 32) with
                | .error er => Except.error er
                | .ok relays => Except.ok ⟨eid, relays⟩
          else Except.error Nip19Error.eventParse
      else Except.error Nip19Error.eventParse) = Except.ok e
  have hid32 : e.event_id.bytes.length = 32 := e.event_id.okey.1
  unfold eventTLV
  simp only [List.cons_append, List.nil_append]
  simp only [if_true]
  have hlen2 : ¬ ((e.event_id.bytes ++
      listFlat (fun r => 1 :: r.length % 256 :: r) e.relays).length < 32) := by
    simp [hid32]
  rw [if_neg hlen2]
  rw [List.take_left' hid32, EventId.fromSlice_self_eid]
  rw [List.drop_left' hid32]
  rw [parseRelays_flat _ e.relays _ hv le_rfl]

theorem profile_roundtrip (p : Profile)
    (hv : ∀ r ∈ p.relays, isRustString r ∧ r.length ≤ 255) :
    (Profile.toBech32 p).bind Profile.fromBech32 = .ok p := by
  have henc := encode_toBase32 nprofileHrp (profileTLV p) .bech32 (by decide) (by decide)
  unfold Profile.toBech32
  rw [henc]
  exact profile_from_to p hv henc

theorem event_roundtrip (e : Nip19Event)
    (hv : ∀ r ∈ e.relays, isRustString r ∧ r.length ≤ 255) :
    (Nip19Event.toBech32 e).bind Nip19Event.fromBech32 = .ok e := by
  have henc := encode_toBase32 neventHrp (eventTLV e) .bech32 (by decide) (by decide)
  unfold Nip19Event.toBech32
  rw [henc]
  exact event_from_to e hv henc

theorem exceptBindOk (a : α) (f : α → Except ε β) :
    (Except.ok a : Except ε α).bind f = f a := rfl

/-! ### Claim theorems -/

/-- C1 (amended): decoding inverts encoding for SecretKey, XOnlyPublicKey and
EventId on all valid values, and for Profile and Nip19Event on all relay-URL
lists whose URLs are valid UTF-8 byte strings of at most 255 bytes. -/
theorem c1_roundtrip_amended :
    (∀ sk : SecretKey, (SecretKey.toBech32 sk).bind SecretKey.fromBech32 = .ok sk) ∧
    (∀ pk : XOnlyPublicKey,
      (XOnlyPublicKey.toBech32 pk).bind XOnlyPublicKey.fromBech32 = .ok pk) ∧
    (∀ e : EventId, (EventId.toBech32 e).bind EventId.fromBech32 = .ok e) ∧
    (∀ p : Profile, (∀ r ∈ p.relays, isRustString r ∧ r.length ≤ 255) →
      (Profile.toBech32 p).bind Profile.fromBech32 = .ok p) ∧
    (∀ e : Nip19Event, (∀ r ∈ e.relays, isRustString r ∧ r.length ≤ 255) →
      (Nip19Event.toBech32 e).bind Nip19Event.fromBech32 = .ok e) :=
  ⟨sk_roundtrip, pk_roundtrip, eid_roundtrip, profile_roundtrip, event_roundtrip⟩

/-- C1 counterexample: a profile whose single relay URL is 256 bytes long does
not round-trip, because `relay.len() as u8` truncates the TLV length byte to
0, so the re-parse fails. -/
theorem c1_roundtrip_cex :
    (Profile.toBech32 cexProfile).bind Profile.fromBech32 ≠ Except.ok cexProfile := by
  have henc := encode_toBase32 nprofileHrp (profileTLV cexProfile) .bech32 (by decide) (by decide)
  have hrs : ∀ r ∈ cexProfile.relays, isRustString r := by decide
  have hlt : ∀ b ∈ profileTLV cexProfile, b < 256 := profileTLV_lt cexProfile hrs
  have htlv := fromBase32_toBase32 hlt
  have hparse : ∀ fuel,
      parseRelaysF Nip19Error.profileParse (fuel + 1 + 1)
        (1 :: 0 :: (List.replicate 256 97 ++ [])) = .error .profileParse := by
    intro fuel
    rw [List.append_nil]
    simp only [parseRelaysF]
    have hnl : ¬ ((List.replicate 256 (97 : Nat)).length < 0) := by simp
    simp only [if_pos rfl, if_neg hnl, List.take_zero, List.drop_zero]
    have hu : utf8Valid [] = true := rfl
    simp only [hu, if_true]
    rw [if_neg (by decide : ¬ ((97 : Nat) = 1))]
  have herr : Profile.fromBech32
      (nprofileHrp ++ '1' :: ((toBase32 (profileTLV cexProfile) ++
        createChecksum nprofileHrp (toBase32 (profileTLV cexProfile)) .bech32).map
          charsetChar)) = .error .profileParse := by
    unfold Profile.fromBech32
    rw [bech32Decode_encode henc]
    simp only [eq_self_iff_true, and_self, if_true, htlv]
    show (match profileTLV cexProfile with
      | [] => Except.error Nip19Error.profileParse
      | t :: rest =>
        if t = 0 then
          match rest with
          | [] => Except.error Nip19Error.profileParse
          | l :: rest2 =>
            if l = 32 then
              if rest2.length < 32 then Except.error Nip19Error.profileParse
              else
                match XOnlyPublicKey.fromSlice (rest2.take 32) with
                | .error _ => Except.error Nip19Error.secpErr
                | .ok pk =>
                  match parseRelaysF .profileParse (rest2.drop 32).length (rest2.drop 32) with
                  | .error e => Except.error e
                  | .ok relays => Except.ok ⟨pk, relays⟩
            else Except.error Nip19Error.profileParse
        else Except.error Nip19Error.profileParse) = Except.error Nip19Error.profileParse
    have hpk32 : pkAa4f.bytes.length = 32 := pkAa4f.okey.1
    show (match profileTLV ⟨pkAa4f, [List.replicate 256 97]⟩ with
      | [] => Except.error Nip19Error.profileParse
      | t :: rest =>
        if t = 0 then
          match rest with
          | [] => Except.error Nip19Error.profileParse
          | l :: rest2 =>
            if l = 32 then
              if rest2.length < 32 then Except.error Nip19Error.profileParse
              else
                match XOnlyPublicKey.fromSlice (rest2.take 32) with
                | .error _ => Except.error Nip19Error.secpErr
                | .ok pk =>
                  match parseRelaysF .profileParse (rest2.drop 32).length (rest2.drop 32) with
                  | .error e => Except.error e
                  | .ok relays => Except.ok ⟨pk, relays⟩
            else Except.error Nip19Error.profileParse
        else Except.error Nip19Error.profileParse) = Except.error Nip19Error.profileParse
    unfold profileTLV
    simp only [List.cons_append, List.nil_append, listFlat, List.length_replicate]
    simp only [if_true]
    have hlen2 : ¬ ((pkAa4f.bytes ++ (1 :: 256 % 256 :: (List.replicate 256 97 ++ []))).length <
        32) := by
      simp [hpk32]
    rw [if_neg hlen2]
    rw [List.take_left' hpk32, XOnlyPublicKey.fromSlice_self_pk, List.drop_left' hpk32]
    have h256 : (256 : Nat) % 256 = 0 := by norm_num
    rw [h256]
    have hlen3 : (1 :: 0 :: (List.replicate 256 (97 : Nat) ++ [])).length =
        (List.replicate 256 (97 : Nat) ++ []).length + 1 + 1 := by
      simp
    rw [hlen3, hparse]
  unfold Profile.toBech32
  rw [henc]
  show ¬ ((Except.ok (nprofileHrp ++ '1' :: ((toBase32 (profileTLV cexProfile) ++
      createChecksum nprofileHrp (toBase32 (profileTLV cexProfile)) .bech32).map
        charsetChar)) : Except Nip19Error (List Char)).bind Profile.fromBech32 =
      Except.ok cexProfile)
  rw [exceptBindOk, herr]
  exact fun h => Except.noConfusion h

/-- C1 witness: the amended round trip holds at a concrete profile and nevent
whose relay URLs are short ASCII strings. -/
theorem c1_roundtrip_witness :
    (Profile.toBech32 wProfile).bind Profile.fromBech32 = .ok wProfile ∧
    (Nip19Event.toBech32 wEvent).bind Nip19Event.fromBech32 = .ok wEvent :=
  ⟨c1_roundtrip_amended.2.2.2.1 wProfile (by decide),
    c1_roundtrip_amended.2.2.2.2 wEvent (by decide)⟩

/-- C3: every encoding a `to_bech32` impl produces starts with its
human-readable prefix followed by the separator `1`. -/
theorem c3_bech32_hrp :
    (∀ sk : SecretKey, ∃ t, SecretKey.toBech32 sk = .ok ("nsec1".toList ++ t)) ∧
    (∀ pk : XOnlyPublicKey, ∃ t, XOnlyPublicKey.toBech32 pk = .ok ("npub1".toList ++ t)) ∧
    (∀ e : EventId, ∃ t, EventId.toBech32 e = .ok ("note1".toList ++ t)) ∧
    (∀ p : Profile, ∃ t, Profile.toBech32 p = .ok ("nprofile1".toList ++ t)) ∧
    (∀ e : Nip19Event, ∃ t, Nip19Event.toBech32 e = .ok ("nevent1".toList ++ t)) := by
  refine
    ⟨fun sk => ⟨(toBase32 sk.bytes ++ createChecksum nsecHrp (toBase32 sk.bytes)
        .bech32).map charsetChar, ?_⟩,
      fun pk => ⟨(toBase32 pk.bytes ++ createChecksum npubHrp (toBase32 pk.bytes)
        .bech32).map charsetChar, ?_⟩,
      fun e => ⟨(toBase32 e.bytes ++ createChecksum noteHrp (toBase32 e.bytes)
        .bech32).map charsetChar, ?_⟩,
      fun p => ⟨(toBase32 (profileTLV p) ++ createChecksum nprofileHrp
        (toBase32 (profileTLV p)) .bech32).map charsetChar, ?_⟩,
      fun e => ⟨(toBase32 (eventTLV e) ++ createChecksum neventHrp
        (toBase32 (eventTLV e)) .bech32).map charsetChar, ?_⟩⟩
  · unfold SecretKey.toBech32
    rw [encode_toBase32 nsecHrp sk.bytes .bech32 (by decide) (by decide)]
    rfl
  · unfold XOnlyPublicKey.toBech32
    rw [encode_toBase32 npubHrp pk.bytes .bech32 (by decide) (by decide)]
    rfl
  · unfold EventId.toBech32
    rw [encode_toBase32 noteHrp e.bytes .bech32 (by decide) (by decide)]
    rfl
  · unfold Profile.toBech32
    rw [encode_toBase32 nprofileHrp (profileTLV p) .bech32 (by decide) (by decide)]
    rfl
  · unfold Nip19Event.toBech32
    rw [encode_toBase32 neventHrp (eventTLV e) .bech32 (by decide) (by decide)]
    rfl

/-- C4: on any well-formed bech32 string whose human-readable part is not the
one a decoder expects, or whose checksum variant is not Bech32, that decoder
returns an error; and on any string that fails bech32 decoding altogether,
every decoder returns an error. -/
theorem c4_wrong_hrp_or_variant :
    (∀ (s : List Char) (hrp : List Char) (data : List Nat) (var : Variant),
      bech32Decode s = some (hrp, data, var) →
      ((hrp ≠ nsecHrp ∨ var ≠ Variant.bech32) → (SecretKey.fromBech32 s).isOk = false) ∧
      ((hrp ≠ npubHrp ∨ var ≠ Variant.bech32) → (XOnlyPublicKey.fromBech32 s).isOk = false) ∧
      ((hrp ≠ noteHrp ∨ var ≠ Variant.bech32) → (EventId.fromBech32 s).isOk = false) ∧
      ((hrp ≠ nprofileHrp ∨ var ≠ Variant.bech32) → (Profile.fromBech32 s).isOk = false) ∧
      ((hrp ≠ neventHrp ∨ var ≠ Variant.bech32) → (Nip19Event.fromBech32 s).isOk = false)) ∧
    (∀ s : List Char, bech32Decode s = none →
      (SecretKey.fromBech32 s).isOk = false ∧
      (XOnlyPublicKey.fromBech32 s).isOk = false ∧
      (EventId.fromBech32 s).isOk = false ∧
      (Profile.fromBech32 s).isOk = false ∧
      (Nip19Event.fromBech32 s).isOk = false) := by
  constructor
  · intro s hrp data var hdec
    refine ⟨fun hw => ?_, fun hw => ?_, fun hw => ?_, fun hw => ?_, fun hw => ?_⟩
    · simp only [SecretKey.fromBech32, hdec]
      rw [if_neg (by tauto : ¬ (hrp = nsecHrp ∧ var = Variant.bech32))]
      rfl
    · simp only [XOnlyPublicKey.fromBech32, hdec]
      rw [if_neg (by tauto : ¬ (hrp = npubHrp ∧ var = Variant.bech32))]
      rfl
    · simp only [EventId.fromBech32, hdec]
      rw [if_neg (by tauto : ¬ (hrp = noteHrp ∧ var = Variant.bech32))]
      rfl
    · simp only [Profile.fromBech32, hdec]
      rw [if_neg (by tauto : ¬ (hrp = nprofileHrp ∧ var = Variant.bech32))]
      rfl
    · simp only [Nip19Event.fromBech32, hdec]
      rw [if_neg (by tauto : ¬ (hrp = neventHrp ∧ var = Variant.bech32))]
      rfl
  · intro s hdec
    refine ⟨?_, ?_, ?_, ?_, ?_⟩
    · simp only [SecretKey.fromBech32, hdec]
      rfl
    · simp only [XOnlyPublicKey.fromBech32, hdec]
      rfl
    · simp only [EventId.fromBech32, hdec]
      rfl
    · simp only [Profile.fromBech32, hdec]
      rfl
    · simp only [Nip19Event.fromBech32, hdec]
      rfl

/-- C4 witness: a valid Bech32m string with human-readable part `test` is
rejected by all five decoders, and so is the empty string, which fails bech32
decoding. -/
theorem c4_wrong_hrp_or_variant_witness :
    ((SecretKey.fromBech32 wC4str).isOk = false ∧
      (XOnlyPublicKey.fromBech32 wC4str).isOk = false ∧
      (EventId.fromBech32 wC4str).isOk = false ∧
      (Profile.fromBech32 wC4str).isOk = false ∧
      (Nip19Event.fromBech32 wC4str).isOk = false) ∧
    ((SecretKey.fromBech32 []).isOk = false ∧
      (XOnlyPublicKey.fromBech32 []).isOk = false ∧
      (EventId.fromBech32 []).isOk = false ∧
      (Profile.fromBech32 []).isOk = false ∧
      (Nip19Event.fromBech32 []).isOk = false) := by
  have hdec : bech32Decode wC4str = some ("test".toList, [], Variant.bech32m) := by decide
  have h := c4_wrong_hrp_or_variant.1 wC4str "test".toList [] Variant.bech32m hdec
  have hnone : bech32Decode [] = none := by decide
  have h2 := c4_wrong_hrp_or_variant.2 [] hnone
  refine ⟨⟨h.1 ?_, (h.2).1 ?_, h.2.2.1 ?_, h.2.2.2.1 ?_, h.2.2.2.2 ?_⟩, h2⟩
  all_goals right
  all_goals decide

/-- C5: the spec's bech32 round-trip scenario: the concrete secret key encodes
to the expected `nsec1` string and decoding that string returns the key. -/
theorem c5_nsec_vector :
    SecretKey.toBech32 sk9571 = .ok nsecVec ∧
    SecretKey.fromBech32 nsecVec = .ok sk9571 := ⟨rfl, rfl⟩

theorem relaysFlat_mod {rs : List (List Nat)} (h : ∀ r ∈ rs, r.length ≤ 255) :
    listFlat (fun r => 1 :: r.length % 256 :: r) rs =
      listFlat (fun r => 1 :: r.length :: r) rs := by
  induction rs with
  | nil => rfl
  | cons r rest ih =>
    rw [listFlat, listFlat, Nat.mod_eq_of_lt (by have := h r (by simp); omega),
      ih (fun x hx => h x (by simp [hx]))]

/-- C2 (amended): for profiles whose relay URLs are at most 255 bytes,
`Profile::to_bech32` builds exactly the spec's TLV byte sequence before bech32
wrapping; and the spec's concrete `nprofile` string decodes to the expected
record and re-encodes to the same string. -/
theorem c2_profile_tlv_amended :
    (∀ p : Profile, (∀ r ∈ p.relays, r.length ≤ 255) →
      profileTLV p = specProfileTLV p) ∧
    Profile.fromBech32 nprofileVec = .ok prof3bf0 ∧
    Profile.toBech32 prof3bf0 = .ok nprofileVec := by
  refine ⟨fun p hp => ?_, rfl, rfl⟩
  unfold profileTLV specProfileTLV
  rw [relaysFlat_mod hp]

/-- C2 counterexample: with a 256-byte relay URL the emitted TLV length byte
is `256 % 256 = 0`, not the URL's byte length, so the emitted sequence is not
the spec's TLV sequence. -/
theorem c2_profile_tlv_cex : profileTLV c2cexProfile ≠ specProfileTLV c2cexProfile := by
  decide

/-- C2 witness: the TLV equality holds at the spec's concrete profile, whose
relay URLs are 13 and 21 bytes long. -/
theorem c2_profile_tlv_witness : profileTLV prof3bf0 = specProfileTLV prof3bf0 :=
  c2_profile_tlv_amended.1 prof3bf0 (by decide)

theorem parseRelaysF_fuelAux (err : Nip19Error) :
    ∀ n f1 f2 rd, rd.length ≤ n → rd.length ≤ f1 → rd.length ≤ f2 →
      parseRelaysF err f1 rd = parseRelaysF err f2 rd := by
  intro n
  induction n with
  | zero =>
    intro f1 f2 rd h h1 h2
    rcases rd with _ | ⟨t, rest⟩
    · cases f1 <;> cases f2 <;> rfl
    · simp at h
  | succ n ih =>
    intro f1 f2 rd h h1 h2
    rcases rd with _ | ⟨t, rest⟩
    · cases f1 <;> cases f2 <;> rfl
    · rcases f1 with _ | f1
      · simp at h1
      · rcases f2 with _ | f2
        · simp at h2
        · rcases rest with _ | ⟨l, rest2⟩
          · simp only [parseRelaysF]
          · simp only [parseRelaysF]
            by_cases ht : t = 1
            · rw [if_pos ht, if_pos ht]
              by_cases hl : rest2.length < l
              · rw [if_pos hl, if_pos hl]
              · rw [if_neg hl, if_neg hl]
                by_cases hu : utf8Valid (rest2.take l) = true
                · simp only [hu, if_true]
                  rw [ih f1 f2 (rest2.drop l)
                    (by simp only [List.length_cons] at h; simp [List.length_drop]; omega)
                    (by simp only [List.length_cons] at h1; simp [List.length_drop]; omega)
                    (by simp only [List.length_cons] at h2; simp [List.length_drop]; omega)]
                · simp only [hu]
                  rw [if_neg (by simp [hu]), if_neg (by simp [hu])]
            · rw [if_neg ht, if_neg ht]

/-- C8: both TLV decoders are total functions returning `Ok` or an error on
every input string, and the relay-TLV loop terminates: its result is
independent of any fuel bound at least the input length, since each iteration
consumes at least two bytes. -/
theorem c8_parse_total :
    (∀ s : List Char, (∃ p, Profile.fromBech32 s = .ok p) ∨
      (∃ e, Profile.fromBech32 s = .error e)) ∧
    (∀ s : List Char, (∃ v, Nip19Event.fromBech32 s = .ok v) ∨
      (∃ e, Nip19Event.fromBech32 s = .error e)) ∧
    (∀ (err : Nip19Error) (fuel : Nat) (rd : List Nat), rd.length ≤ fuel →
      parseRelaysF err fuel rd = parseRelaysF err rd.length rd) := by
  refine ⟨fun s => ?_, fun s => ?_, fun err fuel rd hf => ?_⟩
  · rcases hres : Profile.fromBech32 s with e | p
    · exact Or.inr ⟨e, rfl⟩
    · exact Or.inl ⟨p, rfl⟩
  · rcases hres : Nip19Event.fromBech32 s with e | v
    · exact Or.inr ⟨e, rfl⟩
    · exact Or.inl ⟨v, rfl⟩
  · exact parseRelaysF_fuelAux err rd.length fuel rd.length rd le_rfl hf le_rfl

/-- C8 witness: totality and fuel-independence at concrete inputs: an
arbitrary string for the decoders, and a well-formed relay TLV with excess
fuel for the loop. -/
theorem c8_parse_total_witness :
    ((∃ p, Profile.fromBech32 "nostr".toList = .ok p) ∨
      (∃ e, Profile.fromBech32 "nostr".toList = .error e)) ∧
    ((∃ v, Nip19Event.fromBech32 "nostr".toList = .ok v) ∨
      (∃ e, Nip19Event.fromBech32 "nostr".toList = .error e)) ∧
    parseRelaysF .profileParse 100 [1, 2, 97, 98] =
      parseRelaysF .profileParse ([1, 2, 97, 98] : List Nat).length [1, 2, 97, 98] :=
  ⟨c8_parse_total.1 "nostr".toList, c8_parse_total.2.1 "nostr".toList,
    c8_parse_total.2.2 .profileParse 100 [1, 2, 97, 98] (by decide)⟩

theorem mem_optEntry_keys {k k' : String} {o : Option Json} :
    k' ∈ (optEntry k o).map Prod.fst ↔ k' = k ∧ o.isSome = true := by
  cases o <;> simp [optEntry]

theorem applyKey_unknown {st : SubscriptionFilter × List String} {k : String} {j : Json}
    (h : k ∉ filterKeys) : applyKey st k j = some st := by
  simp only [filterKeys, List.mem_cons, List.not_mem_nil, or_false, not_or] at h
  obtain ⟨h1, h2, h3, h4, h5, h6, h7, h8, h9, h10, h11⟩ := h
  unfold applyKey
  simp only [if_neg h1, if_neg h2, if_neg h3, if_neg h4, if_neg h5, if_neg h6, if_neg h7,
    if_neg h8, if_neg h9, if_neg h10, if_neg h11]

theorem deserFold_append :
    ∀ (xs ys : List (String × Json)) (st : SubscriptionFilter × List String),
      deserFold st (xs ++ ys) =
        (deserFold st xs).bind (fun st2 => deserFold st2 ys) := by
  intro xs
  induction xs with
  | nil => intro ys st; rfl
  | cons kj rest ih =>
    intro ys st
    rcases kj with ⟨k, j⟩
    rw [List.cons_append, deserFold, deserFold]
    cases happ : applyKey st k j with
    | none => rfl
    | some st2 => exact ih ys st2

theorem deserFold_unknown :
    ∀ (extras : List (String × Json)) (st : SubscriptionFilter × List String),
      (∀ p ∈ extras, p.1 ∉ filterKeys) → deserFold st extras = some st := by
  intro extras
  induction extras with
  | nil => intro st _; rfl
  | cons kj rest ih =>
    intro st h
    rcases kj with ⟨k, j⟩
    rw [deserFold, applyKey_unknown (h (k, j) (by simp))]
    exact ih st (fun p hp => h p (by simp [hp]))

theorem deserFold_filterKnown :
    ∀ (kvs : List (String × Json)) (st : SubscriptionFilter × List String),
      deserFold st kvs =
        deserFold st (kvs.filter (fun p => decide (p.1 ∈ filterKeys))) := by
  intro kvs
  induction kvs with
  | nil => intro st; rfl
  | cons kj rest ih =>
    intro st
    rcases kj with ⟨k, j⟩
    by_cases hk : k ∈ filterKeys
    · have hfil : ((k, j) :: rest).filter (fun p => decide (p.1 ∈ filterKeys)) =
          (k, j) :: rest.filter (fun p => decide (p.1 ∈ filterKeys)) := by
        simp [List.filter_cons, hk]
      rw [deserFold, hfil, deserFold]
      cases happ : applyKey st k j with
      | none => rfl
      | some st2 => exact ih st2
    · have hfil : ((k, j) :: rest).filter (fun p => decide (p.1 ∈ filterKeys)) =
          rest.filter (fun p => decide (p.1 ∈ filterKeys)) := by
        simp [List.filter_cons, hk]
      rw [deserFold, applyKey_unknown hk, hfil]
      exact ih st

/-- C6: the filter's serialization emits a key exactly when the corresponding
field is `Some`, the tag fields use the `#e`/`#p`/`#t`/`#r` keys, no other
keys appear, and deserialization ignores unknown keys wherever they occur in
the object: deserializing any entry list gives the same result as
deserializing the list with the unknown keys removed, so an object whose
known entries deserialize succeeds with the unknown keys ignored. -/
theorem c6_filter_serde :
    (∀ f : SubscriptionFilter,
      ("ids" ∈ (serializeFilter f).map Prod.fst ↔ f.ids.isSome = true) ∧
      ("authors" ∈ (serializeFilter f).map Prod.fst ↔ f.authors.isSome = true) ∧
      ("kinds" ∈ (serializeFilter f).map Prod.fst ↔ f.kinds.isSome = true) ∧
      ("#e" ∈ (serializeFilter f).map Prod.fst ↔ f.events.isSome = true) ∧
      ("#p" ∈ (serializeFilter f).map Prod.fst ↔ f.pubkeys.isSome = true) ∧
      ("#t" ∈ (serializeFilter f).map Prod.fst ↔ f.hashtags.isSome = true) ∧
      ("#r" ∈ (serializeFilter f).map Prod.fst ↔ f.references.isSome = true) ∧
      ("search" ∈ (serializeFilter f).map Prod.fst ↔ f.search.isSome = true) ∧
      ("since" ∈ (serializeFilter f).map Prod.fst ↔ f.since.isSome = true) ∧
      ("until" ∈ (serializeFilter f).map Prod.fst ↔ f.until'.isSome = true) ∧
      ("limit" ∈ (serializeFilter f).map Prod.fst ↔ f.limit.isSome = true) ∧
      (∀ k ∈ (serializeFilter f).map Prod.fst, k ∈ filterKeys)) ∧
    (∀ (kvs : List (String × Json)),
      deserializeFilter kvs =
        deserializeFilter (kvs.filter (fun p => decide (p.1 ∈ filterKeys)))) ∧
    (∀ (kvs : List (String × Json)) (f : SubscriptionFilter),
      deserializeFilter (kvs.filter (fun p => decide (p.1 ∈ filterKeys))) = some f →
      deserializeFilter kvs = some f) := by
  have hfil : ∀ (kvs : List (String × Json)),
      deserializeFilter kvs =
        deserializeFilter (kvs.filter (fun p => decide (p.1 ∈ filterKeys))) := by
    intro kvs
    unfold deserializeFilter
    rw [deserFold_filterKnown]
  refine ⟨?_, hfil, ?_⟩
  · intro f
    refine ⟨?_, ?_, ?_, ?_, ?_, ?_, ?_, ?_, ?_, ?_, ?_, ?_⟩
    all_goals simp only [serializeFilter, List.map_append, List.mem_append, mem_optEntry_keys]
    all_goals try simp
    intro k hk
    simp only [filterKeys, List.mem_cons, List.not_mem_nil, or_false]
    tauto
  · intro kvs f hdes
    rw [hfil kvs]
    exact hdes

/-- C6 witness: a concrete object with an unknown key placed before a known
one deserializes, ignoring the unknown key. -/
theorem c6_filter_serde_witness :
    deserializeFilter [("foo", Json.str "x"), ("limit", Json.num 10)] =
      some { SubscriptionFilter.new with limit := some 10 } :=
  c6_filter_serde.2.2 [("foo", Json.str "x"), ("limit", Json.num 10)]
    { SubscriptionFilter.new with limit := some 10 } rfl

theorem hexDigit_isHex : ∀ n, n < 16 → isHexDigitA (hexDigit n) = true := by
  decide

theorem countP_hexPair (b : Nat) : (hexPair b).countP isHexDigitA = 2 := by
  unfold hexPair
  have h1 := hexDigit_isHex (b / 16 % 16) (Nat.mod_lt _ (by omega))
  have h2 := hexDigit_isHex (b % 16) (Nat.mod_lt _ (by omega))
  simp [List.countP_cons, h1, h2]

/-- C7: every generated subscription id contains at least 16 hexadecimal
characters (its 32 hex digits), and a user-supplied id is stored unchanged. -/
theorem c7_subscription_id :
    (∀ bs : List Nat,
      16 ≤ (SubscriptionId.generate bs).toString.data.countP isHexDigitA) ∧
    (∀ s : String, (SubscriptionId.new s).toString = s) := by
  constructor
  · intro bs
    show 16 ≤ (uuidV4Chars bs).countP isHexDigitA
    have hDash : isHexDigitA '-' = false := rfl
    unfold uuidV4Chars
    simp only [List.countP_append, List.countP_cons, countP_hexPair, hDash]
    omega
  · intro s
    rfl

/-- C9: every builder method sets exactly its own field to `Some` of the
given value and leaves each of the other ten fields unchanged. -/
theorem c9_builder_frame :
    ∀ (f : SubscriptionFilter) (s : String) (ss : List String) (pk : XOnlyPublicKey)
      (pks : List XOnlyPublicKey) (k : Kind) (ks : List Kind) (e : EventId)
      (es : List EventId) (t : Timestamp) (n : Nat),
      (f.id' s).ids = some [s] ∧
      (f.id' s).authors = f.authors ∧
      (f.id' s).kinds = f.kinds ∧
      (f.id' s).events = f.events ∧
      (f.id' s).pubkeys = f.pubkeys ∧
      (f.id' s).hashtags = f.hashtags ∧
      (f.id' s).references = f.references ∧
      (f.id' s).search = f.search ∧
      (f.id' s).since = f.since ∧
      (f.id' s).until' = f.until' ∧
      (f.id' s).limit = f.limit ∧
      (f.ids' ss).ids = some ss ∧
      (f.ids' ss).authors = f.authors ∧
      (f.ids' ss).kinds = f.kinds ∧
      (f.ids' ss).events = f.events ∧
      (f.ids' ss).pubkeys = f.pubkeys ∧
      (f.ids' ss).hashtags = f.hashtags ∧
      (f.ids' ss).references = f.references ∧
      (f.ids' ss).search = f.search ∧
      (f.ids' ss).since = f.since ∧
      (f.ids' ss).until' = f.until' ∧
      (f.ids' ss).limit = f.limit ∧
      (f.author' pk).ids = f.ids ∧
      (f.author' pk).authors = some [pk] ∧
      (f.author' pk).kinds = f.kinds ∧
      (f.author' pk).events = f.events ∧
      (f.author' pk).pubkeys = f.pubkeys ∧
      (f.author' pk).hashtags = f.hashtags ∧
      (f.author' pk).references = f.references ∧
      (f.author' pk).search = f.search ∧
      (f.author' pk).since = f.since ∧
      (f.author' pk).until' = f.until' ∧
      (f.author' pk).limit = f.limit ∧
      (f.authors' pks).ids = f.ids ∧
      (f.authors' pks).authors = some pks ∧
      (f.authors' pks).kinds = f.kinds ∧
      (f.authors' pks).events = f.events ∧
      (f.authors' pks).pubkeys = f.pubkeys ∧
      (f.authors' pks).hashtags = f.hashtags ∧
      (f.authors' pks).references = f.references ∧
      (f.authors' pks).search = f.search ∧
      (f.authors' pks).since = f.since ∧
      (f.authors' pks).until' = f.until' ∧
      (f.authors' pks).limit = f.limit ∧
      (f.kind' k).ids = f.ids ∧
      (f.kind' k).authors = f.authors ∧
      (f.kind' k).kinds = some [k] ∧
      (f.kind' k).events = f.events ∧
      (f.kind' k).pubkeys = f.pubkeys ∧
      (f.kind' k).hashtags = f.hashtags ∧
      (f.kind' k).references = f.references ∧
      (f.kind' k).search = f.search ∧
      (f.kind' k).since = f.since ∧
      (f.kind' k).until' = f.until' ∧
      (f.kind' k).limit = f.limit ∧
      (f.kinds' ks).ids = f.ids ∧
      (f.kinds' ks).authors = f.authors ∧
      (f.kinds' ks).kinds = some ks ∧
      (f.kinds' ks).events = f.events ∧
      (f.kinds' ks).pubkeys = f.pubkeys ∧
      (f.kinds' ks).hashtags = f.hashtags ∧
      (f.kinds' ks).references = f.references ∧
      (f.kinds' ks).search = f.search ∧
      (f.kinds' ks).since = f.since ∧
      (f.kinds' ks).until' = f.until' ∧
      (f.kinds' ks).limit = f.limit ∧
      (f.event' e).ids = f.ids ∧
      (f.event' e).authors = f.authors ∧
      (f.event' e).kinds = f.kinds ∧
      (f.event' e).events = some [e] ∧
      (f.event' e).pubkeys = f.pubkeys ∧
      (f.event' e).hashtags = f.hashtags ∧
      (f.event' e).references = f.references ∧
      (f.event' e).search = f.search ∧
      (f.event' e).since = f.since ∧
      (f.event' e).until' = f.until' ∧
      (f.event' e).limit = f.limit ∧
      (f.events' es).ids = f.ids ∧
      (f.events' es).authors = f.authors ∧
      (f.events' es).kinds = f.kinds ∧
      (f.events' es).events = some es ∧
      (f.events' es).pubkeys = f.pubkeys ∧
      (f.events' es).hashtags = f.hashtags ∧
      (f.events' es).references = f.references ∧
      (f.events' es).search = f.search ∧
      (f.events' es).since = f.since ∧
      (f.events' es).until' = f.until' ∧
      (f.events' es).limit = f.limit ∧
      (f.pubkey' pk).ids = f.ids ∧
      (f.pubkey' pk).authors = f.authors ∧
      (f.pubkey' pk).kinds = f.kinds ∧
      (f.pubkey' pk).events = f.events ∧
      (f.pubkey' pk).pubkeys = some [pk] ∧
      (f.pubkey' pk).hashtags = f.hashtags ∧
      (f.pubkey' pk).references = f.references ∧
      (f.pubkey' pk).search = f.search ∧
      (f.pubkey' pk).since = f.since ∧
      (f.pubkey' pk).until' = f.until' ∧
      (f.pubkey' pk).limit = f.limit ∧
      (f.pubkeys' pks).ids = f.ids ∧
      (f.pubkeys' pks).authors = f.authors ∧
      (f.pubkeys' pks).kinds = f.kinds ∧
      (f.pubkeys' pks).events = f.events ∧
      (f.pubkeys' pks).pubkeys = some pks ∧
      (f.pubkeys' pks).hashtags = f.hashtags ∧
      (f.pubkeys' pks).references = f.references ∧
      (f.pubkeys' pks).search = f.search ∧
      (f.pubkeys' pks).since = f.since ∧
      (f.pubkeys' pks).until' = f.until' ∧
      (f.pubkeys' pks).limit = f.limit ∧
      (f.hashtag' s).ids = f.ids ∧
      (f.hashtag' s).authors = f.authors ∧
      (f.hashtag' s).kinds = f.kinds ∧
      (f.hashtag' s).events = f.events ∧
      (f.hashtag' s).pubkeys = f.pubkeys ∧
      (f.hashtag' s).hashtags = some [s] ∧
      (f.hashtag' s).references = f.references ∧
      (f.hashtag' s).search = f.search ∧
      (f.hashtag' s).since = f.since ∧
      (f.hashtag' s).until' = f.until' ∧
      (f.hashtag' s).limit = f.limit ∧
      (f.hashtags' ss).ids = f.ids ∧
      (f.hashtags' ss).authors = f.authors ∧
      (f.hashtags' ss).kinds = f.kinds ∧
      (f.hashtags' ss).events = f.events ∧
      (f.hashtags' ss).pubkeys = f.pubkeys ∧
      (f.hashtags' ss).hashtags = some ss ∧
      (f.hashtags' ss).references = f.references ∧
      (f.hashtags' ss).search = f.search ∧
      (f.hashtags' ss).since = f.since ∧
      (f.hashtags' ss).until' = f.until' ∧
      (f.hashtags' ss).limit = f.limit ∧
      (f.reference' s).ids = f.ids ∧
      (f.reference' s).authors = f.authors ∧
      (f.reference' s).kinds = f.kinds ∧
      (f.reference' s).events = f.events ∧
      (f.reference' s).pubkeys = f.pubkeys ∧
      (f.reference' s).hashtags = f.hashtags ∧
      (f.reference' s).references = some [s] ∧
      (f.reference' s).search = f.search ∧
      (f.reference' s).since = f.since ∧
      (f.reference' s).until' = f.until' ∧
      (f.reference' s).limit = f.limit ∧
      (f.references' ss).ids = f.ids ∧
      (f.references' ss).authors = f.authors ∧
      (f.references' ss).kinds = f.kinds ∧
      (f.references' ss).events = f.events ∧
      (f.references' ss).pubkeys = f.pubkeys ∧
      (f.references' ss).hashtags = f.hashtags ∧
      (f.references' ss).references = some ss ∧
      (f.references' ss).search = f.search ∧
      (f.references' ss).since = f.since ∧
      (f.references' ss).until' = f.until' ∧
      (f.references' ss).limit = f.limit ∧
      (f.search' s).ids = f.ids ∧
      (f.search' s).authors = f.authors ∧
      (f.search' s).kinds = f.kinds ∧
      (f.search' s).events = f.events ∧
      (f.search' s).pubkeys = f.pubkeys ∧
      (f.search' s).hashtags = f.hashtags ∧
      (f.search' s).references = f.references ∧
      (f.search' s).search = some s ∧
      (f.search' s).since = f.since ∧
      (f.search' s).until' = f.until' ∧
      (f.search' s).limit = f.limit ∧
      (f.since' t).ids = f.ids ∧
      (f.since' t).authors = f.authors ∧
      (f.since' t).kinds = f.kinds ∧
      (f.since' t).events = f.events ∧
      (f.since' t).pubkeys = f.pubkeys ∧
      (f.since' t).hashtags = f.hashtags ∧
      (f.since' t).references = f.references ∧
      (f.since' t).search = f.search ∧
      (f.since' t).since = some t ∧
      (f.since' t).until' = f.until' ∧
      (f.since' t).limit = f.limit ∧
      (f.untilB t).ids = f.ids ∧
      (f.untilB t).authors = f.authors ∧
      (f.untilB t).kinds = f.kinds ∧
      (f.untilB t).events = f.events ∧
      (f.untilB t).pubkeys = f.pubkeys ∧
      (f.untilB t).hashtags = f.hashtags ∧
      (f.untilB t).references = f.references ∧
      (f.untilB t).search = f.search ∧
      (f.untilB t).since = f.since ∧
      (f.untilB t).until' = some t ∧
      (f.untilB t).limit = f.limit ∧
      (f.limit' n).ids = f.ids ∧
      (f.limit' n).authors = f.authors ∧
      (f.limit' n).kinds = f.kinds ∧
      (f.limit' n).events = f.events ∧
      (f.limit' n).pubkeys = f.pubkeys ∧
      (f.limit' n).hashtags = f.hashtags ∧
      (f.limit' n).references = f.references ∧
      (f.limit' n).search = f.search ∧
      (f.limit' n).since = f.since ∧
      (f.limit' n).until' = f.until' ∧
      (f.limit' n).limit = some n := by
  intros
  repeat' apply And.intro
  all_goals rfl

/-- C10: `default` delegates to `new`, the fresh filter has every field
`None`, and it serializes to the empty JSON object. -/
theorem c10_default_filter :
    SubscriptionFilter.default = SubscriptionFilter.new ∧
    SubscriptionFilter.new.ids = none ∧
    SubscriptionFilter.new.authors = none ∧
    SubscriptionFilter.new.kinds = none ∧
    SubscriptionFilter.new.events = none ∧
    SubscriptionFilter.new.pubkeys = none ∧
    SubscriptionFilter.new.hashtags = none ∧
    SubscriptionFilter.new.references = none ∧
    SubscriptionFilter.new.search = none ∧
    SubscriptionFilter.new.since = none ∧
    SubscriptionFilter.new.until' = none ∧
    SubscriptionFilter.new.limit = none ∧
    serializeFilter SubscriptionFilter.new = [] :=
  ⟨rfl, rfl, rfl, rfl, rfl, rfl, rfl, rfl, rfl, rfl, rfl, rfl, rfl⟩

end Nostr
